import Mathlib

/-!
# gowiki: the page store, the path validator and the three handlers

A shallow embedding of `src/main.go`.

* Go `string` and `[]byte` values are finite byte sequences (`GoString`).
* `map[string]Page` is a finite map with unique keys and no order (`Finmap`).
* `*Storage` is mutated in place by the source; here every operation returns
  the store it leaves behind.
* Calls into the standard library (`log`, `regexp`, `net/http`,
  `html/template`) are recorded, in program order, as a list of `Event`s.
  The parsed templates (`templates/*.html` are not part of the sources) and
  the request are inputs.
-/

namespace Gowiki

/-! ## Data model -/

/-- Go `string` / `[]byte`: a finite sequence of bytes. -/
abbrev GoString := List UInt8

/-- The bytes of an ASCII string literal of the source. -/
def ascii (s : String) : GoString := s.toList.map (fun c => UInt8.ofNat c.toNat)

/-- `type Page struct { Title string; Body []byte }`. -/
structure Page where
  Title : GoString
  Body : List UInt8
deriving DecidableEq

/-- `type Storage struct { Data map[string]Page }`. The program builds stores
only through `newStorage`, so `Data` is always an allocated map. -/
structure Storage where
  Data : Finmap (fun _ : GoString => Page)
deriving DecidableEq

/-- `func newStorage() *Storage`: a store with an empty map. -/
def newStorage : Storage := ⟨∅⟩

/-- `func (s *Storage) save(p Page)`: `s.Data[p.Title] = p`. -/
def Storage.save (s : Storage) (p : Page) : Storage :=
  ⟨s.Data.insert p.Title p⟩

/-- `func (s *Storage) loadPage(title string) (Page, error)`: the comma-ok map
lookup; `fmt.Errorf("page not found")` when the key is absent. -/
def Storage.loadPage (s : Storage) (title : GoString) : Except String Page :=
  match s.Data.lookup title with
  | none => Except.error "page not found"
  | some page => Except.ok page

/-! ## Regular expressions (`regexp`)

The pattern of `validPath` uses the begin and end of text assertions, literals,
one character class, alternation, `+` and two capture groups. Go's `regexp`
decodes the text as UTF-8 runes; every literal and class range of the pattern
is ASCII, so a rune matches exactly when it is a single byte that matches, and
matching is done on bytes. Without flags `^` and `$` are the begin and the end
of the text. Submatches follow the leftmost-first rule: alternatives are tried
in order and `+` prefers more iterations. -/

/-- Syntax of the regular expressions used by the program. -/
inductive Regexp where
  | beginText : Regexp
  | endText : Regexp
  | lit (s : GoString) : Regexp
  | cls (ranges : List (UInt8 × UInt8)) : Regexp
  | cat (a b : Regexp) : Regexp
  | alt (a b : Regexp) : Regexp
  | plus (a : Regexp) : Regexp
  | cap (i : Nat) (a : Regexp) : Regexp
deriving DecidableEq

/-- A position of the matcher in the text: the number of bytes before it, the
bytes after it, and the capture groups closed so far (latest first). -/
structure Thread where
  pos : Nat
  rest : GoString
  caps : List (Nat × GoString)
deriving DecidableEq

/-- One or more iterations of `f`, more iterations first; `n` bounds the number
of iterations. -/
def Regexp.iterate (f : Thread → List Thread) : Nat → Thread → List Thread
  | 0, _ => []
  | n + 1, t => (f t).flatMap (fun u => Regexp.iterate f n u ++ [u])

/-- All ways for the expression to match at the thread, in priority order:
each result is the thread after the match. -/
def Regexp.step : Regexp → Thread → List Thread
  | Regexp.beginText, t => if t.pos = 0 then [t] else []
  | Regexp.endText, t => if t.rest = [] then [t] else []
  | Regexp.lit s, t =>
    if s.isPrefixOf t.rest then [⟨t.pos + s.length, t.rest.drop s.length, t.caps⟩] else []
  | Regexp.cls ranges, t =>
    match t.rest with
    | [] => []
    | c :: cs => if ranges.any (fun r => r.1 ≤ c && c ≤ r.2) then [⟨t.pos + 1, cs, t.caps⟩] else []
  | Regexp.cat a b, t => (a.step t).flatMap b.step
  | Regexp.alt a b, t => a.step t ++ b.step t
  | Regexp.plus a, t => Regexp.iterate a.step (t.rest.length + 1) t
  | Regexp.cap i a, t =>
    (a.step t).map (fun u => ⟨u.pos, u.rest, (i, t.rest.take (u.pos - t.pos)) :: u.caps⟩)

/-- `(*Regexp).NumSubexp`: the number of capture groups. -/
def Regexp.NumSubexp : Regexp → Nat
  | Regexp.cat a b => max a.NumSubexp b.NumSubexp
  | Regexp.alt a b => max a.NumSubexp b.NumSubexp
  | Regexp.plus a => a.NumSubexp
  | Regexp.cap i a => max i a.NumSubexp
  | _ => 0

/-- The match of `re` that starts where `pos` bytes are behind and `rest` is
ahead, if there is one: element 0 of the result is the matched text, element
`i` the text of group `i` (empty when the group did not take part). -/
def Regexp.matchAt (re : Regexp) (pos : Nat) (rest : GoString) : Option (List GoString) :=
  (re.step ⟨pos, rest, []⟩).head?.map (fun u =>
    rest.take (u.pos - pos) ::
      (List.range re.NumSubexp).map (fun i => (u.caps.lookup (i + 1)).getD []))

/-- The leftmost match of `re`: the match at the current position, otherwise
the leftmost match further on. -/
def Regexp.findFrom (re : Regexp) (pos : Nat) : GoString → Option (List GoString)
  | [] => re.matchAt pos []
  | c :: cs =>
    match re.matchAt pos (c :: cs) with
    | some m => some m
    | none => re.findFrom (pos + 1) cs

/-- `(*Regexp).FindStringSubmatch`: `nil` (here `none`) when there is no match,
otherwise the leftmost match and its submatches. -/
def Regexp.FindStringSubmatch (re : Regexp) (s : GoString) : Option (List GoString) :=
  re.findFrom 0 s

/-- `var validPath = regexp.MustCompile("^/(edit|save|view)/([a-zA-Z0-9]+)$")`. -/
def validPath : Regexp :=
  Regexp.cat Regexp.beginText
    (Regexp.cat (Regexp.lit (ascii "/"))
      (Regexp.cat
        (Regexp.cap 1
          (Regexp.alt (Regexp.lit (ascii "edit"))
            (Regexp.alt (Regexp.lit (ascii "save")) (Regexp.lit (ascii "view")))))
        (Regexp.cat (Regexp.lit (ascii "/"))
          (Regexp.cat
            (Regexp.cap 2 (Regexp.plus (Regexp.cls [(97, 122), (65, 90), (48, 57)])))
            Regexp.endText))))

/-! ## Requests, library calls and handlers -/

/-- The parts of `*http.Request` the program reads: the method (never read by
the program itself), `r.URL.Path`, and the parsed form, which gives the values
of every key (none when the key is absent). -/
structure Request where
  Method : GoString
  Path : GoString
  Form : GoString → List GoString

/-- `(*Request).FormValue`: the first value of the key, or the empty string. -/
def Request.FormValue (r : Request) (key : GoString) : GoString :=
  match r.Form key with
  | [] => []
  | v :: _ => v

/-- `http.StatusOK`. -/
def StatusOK : Nat := 200

/-- `http.StatusFound`. -/
def StatusFound : Nat := 302

/-- `http.StatusNotFound`. -/
def StatusNotFound : Nat := 404

/-- `http.StatusInternalServerError`. -/
def StatusInternalServerError : Nat := 500

/-- A call into the standard library, with the arguments the program passes
(the writer and the request are left out).
* `Println line` is `log.Println(line)`.
* `FindStringSubmatch s` is `validPath.FindStringSubmatch(s)`.
* `NotFound` is `http.NotFound(w, r)`, which replies 404.
* `Redirect url code` is `http.Redirect(w, r, url, code)`, which replies `code`
  with header `Location: url` (it leaves unchanged a `url` that is an absolute
  path of ASCII bytes without empty or dot segments).
* `ExecuteTemplate name data` is `templates.ExecuteTemplate(w, name, data)`.
* `Error msg code` is `http.Error(w, msg, code)`.
* `Panic` is a run-time panic of the handler (an index out of range). -/
inductive Event where
  | Println (line : String) : Event
  | FindStringSubmatch (s : GoString) : Event
  | NotFound : Event
  | Redirect (url : GoString) (code : Nat) : Event
  | ExecuteTemplate (name : GoString) (data : Page) : Event
  | Error (msg : GoString) (code : Nat) : Event
  | Panic : Event
deriving DecidableEq

/-- The status code a library call replies with, if it sets one. -/
def Event.status : Event → Option Nat
  | Event.NotFound => some StatusNotFound
  | Event.Redirect _ code => some code
  | Event.Error _ code => some code
  | _ => none

/-- The `Location` header a library call sets, if any. -/
def Event.location : Event → Option GoString
  | Event.Redirect url _ => some url
  | _ => none

/-- The status code of the reply, where the calls of the trace determine it:
the code of the first call that sets one, and 200 when no call sets one
(`net/http` sends 200 with the first write, or when the handler returns without
writing). After a template was executed a later `http.Error` changes the code
only if the template had written nothing, and a panic aborts the reply: these
traces have no determined status. -/
def replyStatus : List Event → Option Nat
  | [] => some StatusOK
  | Event.Panic :: _ => none
  | Event.ExecuteTemplate _ _ :: rest =>
    if rest.all (fun e => e.status.isNone && e != Event.Panic) then some StatusOK else none
  | e :: rest =>
    match e.status with
    | some code => some code
    | none => replyStatus rest

/-- What a handler call leaves behind: the store and the library calls it
made, oldest first. -/
structure Effect where
  store : Storage
  trace : List Event
deriving DecidableEq

/-- The package variable `templates`, parsed at start-up from
`templates/edit.html` and `templates/view.html` (not part of the sources): the
error returned by `ExecuteTemplate(w, name, data)`, `none` for `nil`. -/
abbrev Templates := GoString → Page → Option GoString

/-- The type of `viewHandler`, `editHandler` and `saveHandler`:
`func(http.ResponseWriter, *http.Request, string, *Storage)`. -/
abbrev HandlerFunc := Request → GoString → Storage → Effect

/-- `func renderTemplate(w http.ResponseWriter, tmpl string, p Page)`. -/
def renderTemplate (templates : Templates) (tmpl : GoString) (p : Page) : List Event :=
  match templates (tmpl ++ ascii ".html") p with
  | none => [Event.ExecuteTemplate (tmpl ++ ascii ".html") p]
  | some err =>
    [Event.ExecuteTemplate (tmpl ++ ascii ".html") p, Event.Error err StatusInternalServerError]

/-- `func viewHandler(w, r, title, s)`. -/
def viewHandler (templates : Templates) : HandlerFunc := fun _ title s =>
  match s.loadPage title with
  | Except.error _ =>
    ⟨s, [Event.Println "VIEWED", Event.Redirect (ascii "/edit/" ++ title) StatusFound]⟩
  | Except.ok p => ⟨s, Event.Println "VIEWED" :: renderTemplate templates (ascii "view") p⟩

/-- `func editHandler(w, r, title, s)`; `Page{Title: title}` has a `nil` body. -/
def editHandler (templates : Templates) : HandlerFunc := fun _ title s =>
  match s.loadPage title with
  | Except.error _ =>
    ⟨s, Event.Println "EDITED" :: renderTemplate templates (ascii "edit") ⟨title, []⟩⟩
  | Except.ok p => ⟨s, Event.Println "EDITED" :: renderTemplate templates (ascii "edit") p⟩

/-- `func saveHandler(w, r, title, s)`; `[]byte(body)` keeps the bytes. -/
def saveHandler : HandlerFunc := fun r title s =>
  let body := r.FormValue (ascii "body")
  ⟨s.save ⟨title, body⟩,
    [Event.Println "SAVED", Event.Redirect (ascii "/view/" ++ title) StatusFound]⟩

/-- `func (s *Storage) makeHandler(fn) http.HandlerFunc`: the returned closure,
applied to a request and to the store `s` points to at that moment. -/
def makeHandler (fn : HandlerFunc) (r : Request) (s : Storage) : Effect :=
  match validPath.FindStringSubmatch r.Path with
  | none => ⟨s, [Event.FindStringSubmatch r.Path, Event.NotFound]⟩
  | some m =>
    match m[2]? with
    | none => ⟨s, [Event.FindStringSubmatch r.Path, Event.Panic]⟩
    | some title =>
      ⟨(fn r title s).store, Event.FindStringSubmatch r.Path :: (fn r title s).trace⟩

/-! ## Registration (`main`) -/

/-- The three `http.HandleFunc` calls of `main`, in order: pattern and handler. -/
def routes (templates : Templates) : List (GoString × (Request → Storage → Effect)) :=
  [(ascii "/view/", makeHandler (viewHandler templates)),
   (ascii "/edit/", makeHandler (editHandler templates)),
   (ascii "/save/", makeHandler saveHandler)]

/-- Selection of `http.ServeMux` among patterns that end in `/`: such a pattern
matches every path it is an initial segment of, and the longest matching
pattern wins. -/
def muxSelect (mux : List (GoString × (Request → Storage → Effect))) (path : GoString) :
    Option (GoString × (Request → Storage → Effect)) :=
  mux.foldl
    (fun best e =>
      if e.1.isPrefixOf path then
        match best with
        | none => some e
        | some b => if b.1.length < e.1.length then some e else some b
      else best)
    none

/-- The server built by `main` on one request that the mux either hands to a
registered handler or finds no pattern for: the selected handler runs, and
`http.NotFound` when no pattern matches. The mux answers two kinds of path
itself with a redirect, without entering a handler and without touching the
store, and these are outside this definition: a path with an empty or dot
segment, and a registered pattern without its final slash (`/view`, `/edit`,
`/save`). Every path accepted by `validPath` is inside. -/
def serve (templates : Templates) (r : Request) (s : Storage) : Effect :=
  match muxSelect (routes templates) r.Path with
  | none => ⟨s, [Event.NotFound]⟩
  | some e => e.2 r s

/-- The state of the server after `main` has served the requests in order,
starting from `newStorage()`; the trace starts with `log.Println("RUNNED")`.
The store is the real one for every request sequence; the trace is the real
one when every request is one `serve` covers. -/
def main (templates : Templates) (requests : List Request) : Effect :=
  requests.foldl
    (fun st r => ⟨(serve templates r st.store).store, st.trace ++ (serve templates r st.store).trace⟩)
    ⟨newStorage, [Event.Println "RUNNED"]⟩

/-- The three handlers that `main` wraps with `makeHandler`. -/
inductive Handler where
  | view : Handler
  | edit : Handler
  | save : Handler
deriving DecidableEq

/-- The handler function behind each of the three names. -/
def Handler.fn (templates : Templates) : Handler → HandlerFunc
  | Handler.view => viewHandler templates
  | Handler.edit => editHandler templates
  | Handler.save => saveHandler

/-- The store after the requests have been served in order, each through
`makeHandler` of the named handler, starting from `newStorage()`. -/
def servedAll (templates : Templates) (requests : List (Handler × Request)) : Storage :=
  requests.foldl (fun s x => (makeHandler (x.1.fn templates) x.2 s).store) newStorage

/-! ## Vocabulary of the specification -/

/-- An ASCII letter or digit: `a`..`z` (97..122), `A`..`Z` (65..90) or
`0`..`9` (48..57). -/
def isAlnum (c : UInt8) : Bool :=
  (97 ≤ c && c ≤ 122) || (65 ≤ c && c ≤ 90) || (48 ≤ c && c ≤ 57)

/-- The three operation keywords. -/
def operations : List GoString := [ascii "view", ascii "edit", ascii "save"]

/-- A valid title: a non-empty string of ASCII letters and digits. -/
def validTitle (t : GoString) : Prop := t ≠ [] ∧ t.all isAlnum = true

instance (t : GoString) : Decidable (validTitle t) := by
  unfold validTitle; infer_instance

/-- The byte sequence `b` appears in the page: inside its title or its body. -/
def Page.mentions (p : Page) (b : GoString) : Prop := b <:+: p.Title ∨ b <:+: p.Body

instance (p : Page) (b : GoString) : Decidable (p.mentions b) := by
  unfold Page.mentions; infer_instance

/-- The store after the pages of `ps` have been saved, in order, into a fresh
`newStorage()`. -/
def savedAll (ps : List Page) : Storage := ps.foldl Storage.save newStorage

/-- The title loads successfully from the store. -/
def Storage.loads (s : Storage) (title : GoString) : Prop :=
  ∃ p, s.loadPage title = Except.ok p

/-- The number of path validations in a trace: calls of
`validPath.FindStringSubmatch`. -/
def validations (trace : List Event) : Nat :=
  trace.countP (fun e => match e with
    | Event.FindStringSubmatch _ => true
    | _ => false)

/-! ## The validator in closed form -/

/-- The ranges of the class of `validPath` are the ASCII letters and digits. -/
theorem cls_any (c : UInt8) :
    [((97 : UInt8), (122 : UInt8)), (65, 90), (48, 57)].any (fun r => r.1 ≤ c && c ≤ r.2) = isAlnum c := by
  simp [isAlnum, List.any, Bool.or_assoc]

theorem flatMap_map_guard {α β : Type} (f : α → β) (q : β → Prop) [DecidablePred q] (l : List α) :
    (l.map f).flatMap (fun v => if q v then [v] else []) = (l.filter (fun u => decide (q (f u)))).map f := by
  induction l with
  | nil => rfl
  | cons a l ih =>
    by_cases h : q (f a) <;> simp_all [List.flatMap_cons, List.filter_cons]

theorem cls_step_nil (pos : Nat) (caps : List (Nat × GoString)) :
    (Regexp.cls [(97, 122), (65, 90), (48, 57)]).step ⟨pos, [], caps⟩ = [] := by
  simp [Regexp.step]

theorem cls_step_cons (pos : Nat) (c : UInt8) (cs : GoString) (caps : List (Nat × GoString)) :
    (Regexp.cls [(97, 122), (65, 90), (48, 57)]).step ⟨pos, c :: cs, caps⟩ =
      if isAlnum c = true then [⟨pos + 1, cs, caps⟩] else [] := by
  simp only [Regexp.step, cls_any]

/-- Of all the ways for `[a-zA-Z0-9]+` to match, the only one that reaches the
end of the text takes the whole rest, which must be non-empty and
alphanumeric. -/
theorem iterate_cls_end (n : Nat) : ∀ t : Thread, t.rest.length ≤ n →
    (Regexp.iterate (Regexp.cls [(97, 122), (65, 90), (48, 57)]).step n t).filter
        (fun u => decide (u.rest = [])) =
      if t.rest ≠ [] ∧ t.rest.all isAlnum = true then [⟨t.pos + t.rest.length, [], t.caps⟩] else [] := by
  induction n with
  | zero =>
    intro t ht
    have : t.rest = [] := List.length_eq_zero.mp (Nat.le_zero.mp ht)
    simp [Regexp.iterate, this]
  | succ n ih =>
    intro t ht
    obtain ⟨pos, rest, caps⟩ := t
    cases rest with
    | nil => simp [Regexp.iterate, cls_step_nil]
    | cons c cs =>
      rw [Regexp.iterate, cls_step_cons]
      by_cases hc : isAlnum c = true
      · simp only [hc, if_true, List.flatMap_cons, List.flatMap_nil, List.append_nil, List.filter_append]
        have hlen : cs.length ≤ n := by simpa using ht
        rw [ih ⟨pos + 1, cs, caps⟩ hlen]
        cases cs with
        | nil => simp [hc]
        | cons d ds => simp [hc, Nat.add_assoc, Nat.add_comm 1]
      · simp [hc]

/-- The part `([a-zA-Z0-9]+)$` of `validPath`. -/
theorem step_tail (t : Thread) :
    ((Regexp.cap 2 (Regexp.plus (Regexp.cls [(97, 122), (65, 90), (48, 57)]))).cat
        Regexp.endText).step t =
      if t.rest ≠ [] ∧ t.rest.all isAlnum = true then
        [⟨t.pos + t.rest.length, [], (2, t.rest) :: t.caps⟩]
      else [] := by
  have h1 : ∀ a b : Regexp, (a.cat b).step t = (a.step t).flatMap b.step := fun _ _ => rfl
  have h2 : ∀ (i : Nat) (a : Regexp), (Regexp.cap i a).step t =
      (a.step t).map (fun u => ⟨u.pos, u.rest, (i, t.rest.take (u.pos - t.pos)) :: u.caps⟩) :=
    fun _ _ => rfl
  have h3 : ∀ a : Regexp, (Regexp.plus a).step t = Regexp.iterate a.step (t.rest.length + 1) t :=
    fun _ => rfl
  have h4 : Regexp.endText.step = fun v : Thread => if v.rest = [] then [v] else [] := by
    funext v; rfl
  rw [h1, h2, h3, h4, flatMap_map_guard, iterate_cls_end _ _ (Nat.le_succ _)]
  split <;> simp

theorem step_cat (a b : Regexp) (t : Thread) : (a.cat b).step t = (a.step t).flatMap b.step := rfl

theorem step_lit (s : GoString) (t : Thread) : (Regexp.lit s).step t =
    if s.isPrefixOf t.rest then [⟨t.pos + s.length, t.rest.drop s.length, t.caps⟩] else [] := rfl

theorem step_alt (a b : Regexp) (t : Thread) : (a.alt b).step t = a.step t ++ b.step t := rfl

theorem step_cap (i : Nat) (a : Regexp) (t : Thread) : (Regexp.cap i a).step t =
    (a.step t).map (fun u => ⟨u.pos, u.rest, (i, t.rest.take (u.pos - t.pos)) :: u.caps⟩) := rfl

theorem step_beginText (t : Thread) : Regexp.beginText.step t = if t.pos = 0 then [t] else [] := rfl

/-- The part `/([a-zA-Z0-9]+)$` of `validPath`. -/
theorem step_title (t : Thread) :
    ((Regexp.lit (ascii "/")).cat
        ((Regexp.cap 2 (Regexp.plus (Regexp.cls [(97, 122), (65, 90), (48, 57)]))).cat
          Regexp.endText)).step t =
      if (ascii "/").isPrefixOf t.rest = true ∧ t.rest.drop 1 ≠ [] ∧
          (t.rest.drop 1).all isAlnum = true then
        [⟨t.pos + 1 + (t.rest.drop 1).length, [], (2, t.rest.drop 1) :: t.caps⟩]
      else [] := by
  rw [step_cat, step_lit]
  by_cases h : (ascii "/").isPrefixOf t.rest = true
  · simp only [h, if_true, List.flatMap_cons, List.flatMap_nil, List.append_nil, step_tail, true_and]
    rfl
  · simp [h]

theorem isPrefixOf_iff_take (op r : GoString) :
    op.isPrefixOf r = true ↔ r.take op.length = op := by
  rw [List.isPrefixOf_iff_prefix, List.prefix_iff_eq_take]
  exact eq_comm

/-- The part `(edit|save|view)` of `validPath`: at most one keyword matches. -/
theorem step_op (t : Thread) :
    (Regexp.cap 1
        ((Regexp.lit (ascii "edit")).alt
          ((Regexp.lit (ascii "save")).alt (Regexp.lit (ascii "view"))))).step t =
      if (ascii "edit").isPrefixOf t.rest = true ∨ (ascii "save").isPrefixOf t.rest = true ∨
          (ascii "view").isPrefixOf t.rest = true then
        [⟨t.pos + 4, t.rest.drop 4, (1, t.rest.take 4) :: t.caps⟩]
      else [] := by
  rw [step_cap, step_alt, step_alt, step_lit, step_lit, step_lit]
  have hl4e : (ascii "edit").length = 4 := rfl
  have hl4s : (ascii "save").length = 4 := rfl
  have hl4v : (ascii "view").length = 4 := rfl
  simp only [hl4e, hl4s, hl4v]
  by_cases he : (ascii "edit").isPrefixOf t.rest = true
  · have hs : ¬ (ascii "save").isPrefixOf t.rest = true := by
      intro hs
      rw [isPrefixOf_iff_take] at he hs
      exact absurd (he.symm.trans hs) (by decide)
    have hv : ¬ (ascii "view").isPrefixOf t.rest = true := by
      intro hv
      rw [isPrefixOf_iff_take] at he hv
      exact absurd (he.symm.trans hv) (by decide)
    simp [he, hs, hv]
  · by_cases hs : (ascii "save").isPrefixOf t.rest = true
    · have hv : ¬ (ascii "view").isPrefixOf t.rest = true := by
        intro hv
        rw [isPrefixOf_iff_take] at hs hv
        exact absurd (hs.symm.trans hv) (by decide)
      simp [he, hs, hv]
    · by_cases hv : (ascii "view").isPrefixOf t.rest = true
      · simp [he, hs, hv]
      · simp [he, hs, hv]

/-- The matches of `validPath` at the start of the text. -/
theorem step_validPath (path : GoString) :
    validPath.step ⟨0, path, []⟩ =
      if (ascii "/").isPrefixOf path = true ∧
          ((ascii "edit").isPrefixOf (path.drop 1) = true ∨
            (ascii "save").isPrefixOf (path.drop 1) = true ∨
            (ascii "view").isPrefixOf (path.drop 1) = true) ∧
          (ascii "/").isPrefixOf (path.drop 5) = true ∧ path.drop 6 ≠ [] ∧
          (path.drop 6).all isAlnum = true then
        [⟨path.length, [], [(2, path.drop 6), (1, (path.drop 1).take 4)]⟩]
      else [] := by
  have hlen : (ascii "/").isPrefixOf (path.drop 5) = true →
      5 + 1 + (path.drop 6).length = path.length := by
    intro h5
    have : 6 ≤ path.length := by
      by_contra hc
      have h0 : path.drop 5 = [] := List.drop_eq_nil_of_le (by omega)
      rw [h0] at h5
      exact absurd h5 (by decide)
    simp only [List.length_drop]; omega
  unfold validPath
  rw [step_cat, step_beginText]
  simp only [if_true, List.flatMap_cons, List.flatMap_nil, List.append_nil]
  rw [step_cat, step_lit]
  by_cases h1 : (ascii "/").isPrefixOf path = true
  · have hl1 : (ascii "/").length = 1 := rfl
    simp only [h1, if_true, List.flatMap_cons, List.flatMap_nil, List.append_nil, true_and, hl1]
    rw [step_cat, step_op]
    by_cases ho : (ascii "edit").isPrefixOf (path.drop 1) = true ∨
          (ascii "save").isPrefixOf (path.drop 1) = true ∨
          (ascii "view").isPrefixOf (path.drop 1) = true
    · simp only [ho, if_true, List.flatMap_cons, List.flatMap_nil, List.append_nil, true_and,
        step_title, List.drop_drop]
      by_cases h5 : (ascii "/").isPrefixOf (path.drop 5) = true
      · simp only [h5, true_and]
        have hp : 0 + 1 + 4 + 1 + (List.drop (1 + (4 + 1)) path).length = path.length := by
          have := hlen h5
          simp only [List.length_drop] at this ⊢
          omega
        rw [hp]
      · simp only [h5, Bool.false_eq_true, false_and, and_false, if_false]
    · simp only [ho, if_false, false_and, and_false, List.flatMap_nil]
  · simp [h1]

/-- Because of `^`, `validPath` matches nowhere but at the start of the text. -/
theorem matchAt_succ (n : Nat) (rest : GoString) : validPath.matchAt (n + 1) rest = none := by
  unfold Regexp.matchAt validPath
  rw [step_cat, step_beginText]
  simp

theorem findFrom_succ (rest : GoString) : ∀ n : Nat, validPath.findFrom (n + 1) rest = none := by
  induction rest with
  | nil => intro n; rw [Regexp.findFrom, matchAt_succ]
  | cons c cs ih => intro n; rw [Regexp.findFrom, matchAt_succ]; exact ih (n + 1)

/-- The value of `validPath.FindStringSubmatch` in closed form. -/
theorem FindStringSubmatch_eq (path : GoString) :
    validPath.FindStringSubmatch path =
      if (ascii "/").isPrefixOf path = true ∧
          ((ascii "edit").isPrefixOf (path.drop 1) = true ∨
            (ascii "save").isPrefixOf (path.drop 1) = true ∨
            (ascii "view").isPrefixOf (path.drop 1) = true) ∧
          (ascii "/").isPrefixOf (path.drop 5) = true ∧ path.drop 6 ≠ [] ∧
          (path.drop 6).all isAlnum = true then
        some [path, (path.drop 1).take 4, path.drop 6]
      else none := by
  have hm : validPath.matchAt 0 path =
      if (ascii "/").isPrefixOf path = true ∧
          ((ascii "edit").isPrefixOf (path.drop 1) = true ∨
            (ascii "save").isPrefixOf (path.drop 1) = true ∨
            (ascii "view").isPrefixOf (path.drop 1) = true) ∧
          (ascii "/").isPrefixOf (path.drop 5) = true ∧ path.drop 6 ≠ [] ∧
          (path.drop 6).all isAlnum = true then
        some [path, (path.drop 1).take 4, path.drop 6]
      else none := by
    unfold Regexp.matchAt
    rw [step_validPath]
    have hn : validPath.NumSubexp = 2 := rfl
    split
    · simp [hn, List.range_succ, List.lookup]
    · rfl
  unfold Regexp.FindStringSubmatch
  cases path with
  | nil => rw [Regexp.findFrom, hm]
  | cons c cs =>
    have key : ∀ o : Option (List GoString),
        (match o with | some m => some m | none => none) = o := by
      intro o; cases o <;> rfl
    rw [Regexp.findFrom, findFrom_succ cs 0, key, hm]

/-- The validator accepts every path of the form `"/" + op + "/" + title` and
returns the path, the keyword and the title. -/
theorem find_accepts (op title : GoString) (hop : op ∈ operations) (ht : validTitle title) :
    validPath.FindStringSubmatch (ascii "/" ++ op ++ ascii "/" ++ title) =
      some [ascii "/" ++ op ++ ascii "/" ++ title, op, title] := by
  have e1 : ascii "/" = [47] := by decide
  have ee : ascii "edit" = [101, 100, 105, 116] := by decide
  have es : ascii "save" = [115, 97, 118, 101] := by decide
  have ev : ascii "view" = [118, 105, 101, 119] := by decide
  obtain ⟨hne, hall⟩ := ht
  rw [FindStringSubmatch_eq]
  simp only [operations, List.mem_cons, List.mem_singleton, List.not_mem_nil, or_false] at hop
  rcases hop with rfl | rfl | rfl <;>
    simp [e1, ee, es, ev, hne, hall, List.isPrefixOf]

/-- Every path the validator accepts has the form `"/" + op + "/" + title`, and
the submatches are the path, the keyword and the title. -/
theorem find_some (path : GoString) (m : List GoString)
    (h : validPath.FindStringSubmatch path = some m) :
    ∃ op title, op ∈ operations ∧ validTitle title ∧
      path = ascii "/" ++ op ++ ascii "/" ++ title ∧ m = [path, op, title] := by
  rw [FindStringSubmatch_eq] at h
  split at h
  · rename_i hc
    obtain ⟨h1, ho, h5, hne, hall⟩ := hc
    refine ⟨(path.drop 1).take 4, path.drop 6, ?_, ⟨hne, hall⟩, ?_, ?_⟩
    · simp only [isPrefixOf_iff_take] at ho
      have hl4e : (ascii "edit").length = 4 := rfl
      have hl4s : (ascii "save").length = 4 := rfl
      have hl4v : (ascii "view").length = 4 := rfl
      rw [hl4e, hl4s, hl4v] at ho
      rcases ho with ho | ho | ho <;> rw [ho] <;> decide
    · rw [List.isPrefixOf_iff_prefix, List.prefix_iff_eq_append] at h1 h5
      have hl1 : (ascii "/").length = 1 := rfl
      rw [hl1] at h1 h5
      rw [List.drop_drop] at h5
      have h4 : List.take 4 (List.drop 1 path) ++ List.drop 5 path = List.drop 1 path := by
        have := List.take_append_drop 4 (List.drop 1 path)
        rwa [List.drop_drop] at this
      calc path = ascii "/" ++ List.drop 1 path := h1.symm
        _ = ascii "/" ++ (List.take 4 (List.drop 1 path) ++ List.drop 5 path) := by rw [h4]
        _ = ascii "/" ++ (List.take 4 (List.drop 1 path) ++ (ascii "/" ++ List.drop 6 path)) := by
            rw [h5]
        _ = _ := by simp only [List.append_assoc]
    · exact (Option.some.inj h).symm
  · exact absurd h (by simp)

/-- The validator rejects every path that is not of the accepted form. -/
theorem find_none (path : GoString)
    (h : ¬ ∃ op title, op ∈ operations ∧ validTitle title ∧
      path = ascii "/" ++ op ++ ascii "/" ++ title) :
    validPath.FindStringSubmatch path = none := by
  cases hf : validPath.FindStringSubmatch path with
  | none => rfl
  | some m =>
    obtain ⟨op, title, h1, h2, h3, _⟩ := find_some path m hf
    exact absurd ⟨op, title, h1, h2, h3⟩ h

/-! ## The page store -/

theorem loadPage_save_self (s : Storage) (p : Page) :
    (s.save p).loadPage p.Title = Except.ok p := by
  simp [Storage.save, Storage.loadPage]

theorem loadPage_save_other (s : Storage) (p : Page) (k : GoString) (h : k ≠ p.Title) :
    (s.save p).loadPage k = s.loadPage k := by
  simp [Storage.save, Storage.loadPage, Finmap.lookup_insert_of_ne _ h]

theorem loadPage_absent (s : Storage) (k : GoString) (h : k ∉ s.Data) :
    s.loadPage k = Except.error "page not found" := by
  simp [Storage.loadPage, Finmap.lookup_eq_none.mpr h]

/-- C1: for every store and every page `p`, `save(p)` followed by
`loadPage(p.Title)` succeeds and returns `p` itself (same title, same body
bytes), also when the store already held an entry for `p.Title`. -/
theorem C1_save_then_loadPage (s : Storage) (p : Page) :
    (s.save p).loadPage p.Title = Except.ok p :=
  loadPage_save_self s p

/-! ## The handler built by `makeHandler` -/

theorem makeHandler_accepts (fn : HandlerFunc) (r : Request) (s : Storage) (op title : GoString)
    (hop : op ∈ operations) (ht : validTitle title)
    (hp : r.Path = ascii "/" ++ op ++ ascii "/" ++ title) :
    makeHandler fn r s =
      ⟨(fn r title s).store, Event.FindStringSubmatch r.Path :: (fn r title s).trace⟩ := by
  unfold makeHandler
  rw [hp, find_accepts op title hop ht]
  rfl

theorem makeHandler_rejects (fn : HandlerFunc) (r : Request) (s : Storage)
    (h : validPath.FindStringSubmatch r.Path = none) :
    makeHandler fn r s = ⟨s, [Event.FindStringSubmatch r.Path, Event.NotFound]⟩ := by
  unfold makeHandler
  rw [h]

/-- Every byte of an accepted path is a slash, a letter or a digit. -/
theorem accepted_bytes (path : GoString) (m : List GoString)
    (h : validPath.FindStringSubmatch path = some m) : ∀ c ∈ path, c = 47 ∨ isAlnum c = true := by
  obtain ⟨op, title, hop, ht, hp, _⟩ := find_some path m h
  have hops : ∀ c ∈ op, isAlnum c = true := by
    simp only [operations, List.mem_cons, List.mem_singleton, List.not_mem_nil, or_false] at hop
    rcases hop with rfl | rfl | rfl <;> decide
  have htit : ∀ c ∈ title, isAlnum c = true := by
    have := ht.2
    simpa using this
  intro c hc
  rw [hp] at hc
  simp only [List.mem_append] at hc
  rcases hc with ((hc | hc) | hc) | hc
  · left; have e1 : ascii "/" = [47] := by decide
    rw [e1] at hc; simpa using hc
  · right; exact hops c hc
  · left; have e1 : ascii "/" = [47] := by decide
    rw [e1] at hc; simpa using hc
  · right; exact htit c hc

theorem rejects_of_byte (path : GoString) (c : UInt8) (hc : c ∈ path)
    (hbad : c ≠ 47 ∧ isAlnum c = false) : validPath.FindStringSubmatch path = none := by
  cases hf : validPath.FindStringSubmatch path with
  | none => rfl
  | some m =>
    rcases accepted_bytes path m hf c hc with h | h
    · exact absurd h hbad.1
    · rw [hbad.2] at h; exact absurd h (by decide)

theorem not_accepted_form (path : GoString) (h : validPath.FindStringSubmatch path = none) :
    ¬ ∃ op title, op ∈ operations ∧ validTitle title ∧
      path = ascii "/" ++ op ++ ascii "/" ++ title := by
  rintro ⟨op, title, hop, ht, hp⟩
  rw [hp, find_accepts op title hop ht] at h
  exact Option.noConfusion h

/-- C2: the handler built by `makeHandler(fn)` invokes `fn` exactly on the paths
`"/" + op + "/" + title` with `op` one of view, edit, save and `title` a
non-empty string of ASCII letters and digits, and then with that title; on
every other path it replies 404 whatever `fn` is. The paths `/view/`,
`/view/foo/bar`, `/view/foo-bar`, `/delete/foo` and `/` get 404, and so does
every title that contains an underscore, a hyphen, a space or a percent sign. -/
theorem C2_makeHandler_validates (fn : HandlerFunc) (r : Request) (s : Storage) :
    (∀ op title, op ∈ operations → validTitle title →
        r.Path = ascii "/" ++ op ++ ascii "/" ++ title →
        makeHandler fn r s =
          ⟨(fn r title s).store, Event.FindStringSubmatch r.Path :: (fn r title s).trace⟩) ∧
    ((¬ ∃ op title, op ∈ operations ∧ validTitle title ∧
          r.Path = ascii "/" ++ op ++ ascii "/" ++ title) →
        makeHandler fn r s = ⟨s, [Event.FindStringSubmatch r.Path, Event.NotFound]⟩ ∧
          replyStatus (makeHandler fn r s).trace = some 404) ∧
    (r.Path ∈ [ascii "/view/", ascii "/view/foo/bar", ascii "/view/foo-bar",
          ascii "/delete/foo", ascii "/"] →
        makeHandler fn r s = ⟨s, [Event.FindStringSubmatch r.Path, Event.NotFound]⟩) ∧
    (∀ op title c, c ∈ ascii "_- %" → c ∈ title →
        r.Path = ascii "/" ++ op ++ ascii "/" ++ title →
        makeHandler fn r s = ⟨s, [Event.FindStringSubmatch r.Path, Event.NotFound]⟩) := by
  refine ⟨?_, ?_, ?_, ?_⟩
  · intro op title hop ht hp
    exact makeHandler_accepts fn r s op title hop ht hp
  · intro h
    have hr := makeHandler_rejects fn r s (find_none r.Path h)
    exact ⟨hr, by rw [hr]; rfl⟩
  · intro h
    apply makeHandler_rejects
    simp only [List.mem_cons, List.mem_singleton, List.not_mem_nil, or_false] at h
    rcases h with h | h | h | h | h <;> rw [h] <;> decide
  · intro op title c hc hct hp
    apply makeHandler_rejects
    apply rejects_of_byte r.Path c
    · rw [hp]; simp [hct]
    · have : c = 95 ∨ c = 45 ∨ c = 32 ∨ c = 37 := by
        have e : ascii "_- %" = [95, 45, 32, 37] := by decide
        rw [e] at hc
        simpa using hc
      rcases this with rfl | rfl | rfl | rfl <;> decide

/-- C2, at the request `POST /save/foo` (accepted), at `/delete/foo` (not of
the accepted form), at `/view/foo-bar` (listed) and at `/edit/a_b` (a title
with an underscore). -/
theorem C2_makeHandler_validates_witness :
    makeHandler saveHandler ⟨ascii "POST", ascii "/save/foo", fun _ => []⟩ newStorage =
        ⟨newStorage.save ⟨ascii "foo", []⟩,
          [Event.FindStringSubmatch (ascii "/save/foo"), Event.Println "SAVED",
            Event.Redirect (ascii "/view/foo") 302]⟩ ∧
      makeHandler saveHandler ⟨ascii "POST", ascii "/delete/foo", fun _ => []⟩ newStorage =
        ⟨newStorage, [Event.FindStringSubmatch (ascii "/delete/foo"), Event.NotFound]⟩ ∧
      makeHandler saveHandler ⟨ascii "GET", ascii "/view/foo-bar", fun _ => []⟩ newStorage =
        ⟨newStorage, [Event.FindStringSubmatch (ascii "/view/foo-bar"), Event.NotFound]⟩ ∧
      makeHandler saveHandler ⟨ascii "GET", ascii "/edit/a_b", fun _ => []⟩ newStorage =
        ⟨newStorage, [Event.FindStringSubmatch (ascii "/edit/a_b"), Event.NotFound]⟩ :=
  ⟨(C2_makeHandler_validates saveHandler ⟨ascii "POST", ascii "/save/foo", fun _ => []⟩
      newStorage).1 (ascii "save") (ascii "foo") (by decide) (by decide) (by decide),
    ((C2_makeHandler_validates saveHandler ⟨ascii "POST", ascii "/delete/foo", fun _ => []⟩
      newStorage).2.1 (not_accepted_form _ (by decide))).1,
    (C2_makeHandler_validates saveHandler ⟨ascii "GET", ascii "/view/foo-bar", fun _ => []⟩
      newStorage).2.2.1 (by decide),
    (C2_makeHandler_validates saveHandler ⟨ascii "GET", ascii "/edit/a_b", fun _ => []⟩
      newStorage).2.2.2 (ascii "edit") (ascii "a_b") 95 (by decide) (by decide) (by decide)⟩

/-! ## The three handlers -/

theorem viewHandler_absent (templates : Templates) (r : Request) (t : GoString) (s : Storage)
    (h : t ∉ s.Data) :
    viewHandler templates r t s =
      ⟨s, [Event.Println "VIEWED", Event.Redirect (ascii "/edit/" ++ t) StatusFound]⟩ := by
  unfold viewHandler
  rw [loadPage_absent s t h]

theorem viewHandler_present (templates : Templates) (r : Request) (t : GoString) (s : Storage)
    (p : Page) (h : s.loadPage t = Except.ok p) :
    viewHandler templates r t s =
      ⟨s, Event.Println "VIEWED" :: renderTemplate templates (ascii "view") p⟩ := by
  unfold viewHandler
  rw [h]

theorem renderTemplate_cases (templates : Templates) (tmpl : GoString) (p : Page) :
    renderTemplate templates tmpl p = [Event.ExecuteTemplate (tmpl ++ ascii ".html") p] ∨
      ∃ err, renderTemplate templates tmpl p =
        [Event.ExecuteTemplate (tmpl ++ ascii ".html") p,
          Event.Error err StatusInternalServerError] := by
  unfold renderTemplate
  cases templates (tmpl ++ ascii ".html") p with
  | none => exact Or.inl rfl
  | some err => exact Or.inr ⟨err, rfl⟩

theorem renderTemplate_no_redirect (templates : Templates) (tmpl : GoString) (p : Page)
    (url : GoString) (code : Nat) : Event.Redirect url code ∉ renderTemplate templates tmpl p := by
  rcases renderTemplate_cases templates tmpl p with h | ⟨err, h⟩ <;> rw [h] <;> simp

/-- C3: for a valid title `t` that has no entry in the store, the view handler
replies 302 with `Location: /edit/<t>` and executes no template; the store is
left as it was. -/
theorem C3_view_unknown_redirects (templates : Templates) (r : Request) (t : GoString)
    (s : Storage) (_ht : validTitle t) (habs : t ∉ s.Data) :
    viewHandler templates r t s =
        ⟨s, [Event.Println "VIEWED", Event.Redirect (ascii "/edit/" ++ t) 302]⟩ ∧
      replyStatus (viewHandler templates r t s).trace = some 302 ∧
      (viewHandler templates r t s).trace.filterMap Event.location = [ascii "/edit/" ++ t] ∧
      ∀ name data, Event.ExecuteTemplate name data ∉ (viewHandler templates r t s).trace := by
  have h := viewHandler_absent templates r t s habs
  refine ⟨h, by rw [h]; rfl, by rw [h]; rfl, ?_⟩
  intro name data
  rw [h]
  simp

/-- C3 at the title `Hello` on the empty store. -/
theorem C3_view_unknown_redirects_witness :
    validTitle (ascii "Hello") ∧ ascii "Hello" ∉ newStorage.Data ∧
      viewHandler (fun _ _ => none) ⟨ascii "GET", ascii "/view/Hello", fun _ => []⟩
          (ascii "Hello") newStorage =
        ⟨newStorage, [Event.Println "VIEWED", Event.Redirect (ascii "/edit/Hello") 302]⟩ :=
  ⟨by decide, by decide,
    (C3_view_unknown_redirects (fun _ _ => none)
      ⟨ascii "GET", ascii "/view/Hello", fun _ => []⟩ (ascii "Hello") newStorage (by decide)
      (by decide)).1⟩

/-- C4, as stated, fails: after `POST /save/Hello` with `body=world`, a view of
`Hello` with a view template that reports the error `boom` executes the
template on `{Hello, world}` and then calls `http.Error` with status 500; the
reply is not the 200 the claim promises. -/
theorem C4_counterexample :
    validTitle (ascii "Hello") ∧
      (viewHandler (fun _ _ => some (ascii "boom"))
          ⟨ascii "GET", ascii "/view/Hello", fun _ => []⟩ (ascii "Hello")
          (saveHandler ⟨ascii "POST", ascii "/save/Hello",
            fun k => if k = ascii "body" then [ascii "world"] else []⟩ (ascii "Hello")
            newStorage).store).trace =
        [Event.Println "VIEWED",
          Event.ExecuteTemplate (ascii "view.html") ⟨ascii "Hello", ascii "world"⟩,
          Event.Error (ascii "boom") 500] ∧
      replyStatus
          (viewHandler (fun _ _ => some (ascii "boom"))
            ⟨ascii "GET", ascii "/view/Hello", fun _ => []⟩ (ascii "Hello")
            (saveHandler ⟨ascii "POST", ascii "/save/Hello",
              fun k => if k = ascii "body" then [ascii "world"] else []⟩ (ascii "Hello")
              newStorage).store).trace ≠ some 200 := by
  decide

/-- C4, amended: for a valid title `t`, a body `b` and any prior store, the save
handler called with title `t` and a form whose first `body` value is `b` stores
`Page{t, b}` and replies 302 with `Location: /view/<t>`; the view handler called
for `t` on the store it leaves does not redirect: it executes the template
`view.html` on exactly the page `{t, b}`. When the template reports no error
that is the whole reply and its status is 200; when it reports an error the
handler goes on to call `http.Error` with that error and status 500. -/
theorem C4_save_then_view (templates : Templates) (r r2 : Request) (t b : GoString)
    (more : List GoString) (s : Storage) (_ht : validTitle t)
    (hb : r.Form (ascii "body") = b :: more) :
    (saveHandler r t s).store = s.save ⟨t, b⟩ ∧
      (saveHandler r t s).store.loadPage t = Except.ok ⟨t, b⟩ ∧
      (saveHandler r t s).trace =
        [Event.Println "SAVED", Event.Redirect (ascii "/view/" ++ t) 302] ∧
      replyStatus (saveHandler r t s).trace = some 302 ∧
      (saveHandler r t s).trace.filterMap Event.location = [ascii "/view/" ++ t] ∧
      viewHandler templates r2 t (saveHandler r t s).store =
        ⟨s.save ⟨t, b⟩, Event.Println "VIEWED" :: renderTemplate templates (ascii "view") ⟨t, b⟩⟩ ∧
      (∀ url code, Event.Redirect url code ∉
        (viewHandler templates r2 t (saveHandler r t s).store).trace) ∧
      (viewHandler templates r2 t (saveHandler r t s).store).trace.take 2 =
        [Event.Println "VIEWED", Event.ExecuteTemplate (ascii "view.html") ⟨t, b⟩] ∧
      (templates (ascii "view.html") ⟨t, b⟩ = none →
        (viewHandler templates r2 t (saveHandler r t s).store).trace =
            [Event.Println "VIEWED", Event.ExecuteTemplate (ascii "view.html") ⟨t, b⟩] ∧
          replyStatus (viewHandler templates r2 t (saveHandler r t s).store).trace =
            some 200) ∧
      (∀ err, templates (ascii "view.html") ⟨t, b⟩ = some err →
        (viewHandler templates r2 t (saveHandler r t s).store).trace =
          [Event.Println "VIEWED", Event.ExecuteTemplate (ascii "view.html") ⟨t, b⟩,
            Event.Error err 500]) := by
  have hs : (saveHandler r t s).store = s.save ⟨t, b⟩ := by
    simp [saveHandler, Request.FormValue, hb]
  have hv : viewHandler templates r2 t (saveHandler r t s).store =
      ⟨s.save ⟨t, b⟩, Event.Println "VIEWED" :: renderTemplate templates (ascii "view") ⟨t, b⟩⟩ := by
    rw [hs]
    exact viewHandler_present templates r2 t _ ⟨t, b⟩ (loadPage_save_self s ⟨t, b⟩)
  have hname : ascii "view" ++ ascii ".html" = ascii "view.html" := by decide
  refine ⟨hs, ?_, rfl, rfl, rfl, hv, ?_, ?_, ?_, ?_⟩
  · rw [hs]; exact loadPage_save_self s ⟨t, b⟩
  · intro url code
    rw [hv]
    simp [renderTemplate_no_redirect]
  · rw [hv]
    rcases renderTemplate_cases templates (ascii "view") ⟨t, b⟩ with h | ⟨err, h⟩ <;>
      simp [h, hname]
  · intro hnone
    rw [hv]
    have hr : renderTemplate templates (ascii "view") ⟨t, b⟩ =
        [Event.ExecuteTemplate (ascii "view.html") ⟨t, b⟩] := by
      simp [renderTemplate, hname, hnone]
    rw [hr]
    exact ⟨rfl, rfl⟩
  · intro err herr
    rw [hv]
    have hr : renderTemplate templates (ascii "view") ⟨t, b⟩ =
        [Event.ExecuteTemplate (ascii "view.html") ⟨t, b⟩, Event.Error err 500] := by
      simp [renderTemplate, hname, herr, StatusInternalServerError]
    rw [hr]

/-- C4 (amended) at `POST /save/Hello` with the two values `body=world` and
`body=other` on the empty store: the first value is stored, and the view
replies 200 with a template that reports no error and calls `http.Error` with
one that reports `boom`. -/
theorem C4_save_then_view_witness :
    validTitle (ascii "Hello") ∧
      (saveHandler ⟨ascii "POST", ascii "/save/Hello",
          fun k => if k = ascii "body" then [ascii "world", ascii "other"] else []⟩
          (ascii "Hello") newStorage).store.loadPage (ascii "Hello") =
        Except.ok ⟨ascii "Hello", ascii "world"⟩ ∧
      (saveHandler ⟨ascii "POST", ascii "/save/Hello",
          fun k => if k = ascii "body" then [ascii "world", ascii "other"] else []⟩
          (ascii "Hello") newStorage).trace =
        [Event.Println "SAVED", Event.Redirect (ascii "/view/Hello") 302] ∧
      ((viewHandler (fun _ _ => none) ⟨ascii "GET", ascii "/view/Hello", fun _ => []⟩
          (ascii "Hello")
          (saveHandler ⟨ascii "POST", ascii "/save/Hello",
            fun k => if k = ascii "body" then [ascii "world", ascii "other"] else []⟩
            (ascii "Hello") newStorage).store).trace =
          [Event.Println "VIEWED",
            Event.ExecuteTemplate (ascii "view.html") ⟨ascii "Hello", ascii "world"⟩] ∧
        replyStatus
            (viewHandler (fun _ _ => none) ⟨ascii "GET", ascii "/view/Hello", fun _ => []⟩
              (ascii "Hello")
              (saveHandler ⟨ascii "POST", ascii "/save/Hello",
                fun k => if k = ascii "body" then [ascii "world", ascii "other"] else []⟩
                (ascii "Hello") newStorage).store).trace = some 200) ∧
      (viewHandler (fun _ _ => some (ascii "boom"))
          ⟨ascii "GET", ascii "/view/Hello", fun _ => []⟩ (ascii "Hello")
          (saveHandler ⟨ascii "POST", ascii "/save/Hello",
            fun k => if k = ascii "body" then [ascii "world", ascii "other"] else []⟩
            (ascii "Hello") newStorage).store).trace =
        [Event.Println "VIEWED",
          Event.ExecuteTemplate (ascii "view.html") ⟨ascii "Hello", ascii "world"⟩,
          Event.Error (ascii "boom") 500] :=
  have h := fun templates => C4_save_then_view templates
    ⟨ascii "POST", ascii "/save/Hello",
      fun k => if k = ascii "body" then [ascii "world", ascii "other"] else []⟩
    ⟨ascii "GET", ascii "/view/Hello", fun _ => []⟩ (ascii "Hello") (ascii "world")
    [ascii "other"] newStorage (by decide) (by decide)
  ⟨by decide, (h (fun _ _ => none)).2.1, (h (fun _ _ => none)).2.2.1,
    (h (fun _ _ => none)).2.2.2.2.2.2.2.2.1 rfl,
    (h (fun _ _ => some (ascii "boom"))).2.2.2.2.2.2.2.2.2 (ascii "boom") rfl⟩

/-! ## Repeated saves and reachable stores -/

theorem save_save (s : Storage) (t b1 b2 : GoString) :
    (s.save ⟨t, b1⟩).save ⟨t, b2⟩ = s.save ⟨t, b2⟩ := by
  simp [Storage.save, Finmap.insert_insert]

theorem mem_of_executeTemplate (templates : Templates) (tmpl name : GoString) (p q : Page)
    (h : Event.ExecuteTemplate name q ∈ renderTemplate templates tmpl p) : q = p := by
  rcases renderTemplate_cases templates tmpl p with h1 | ⟨err, h1⟩ <;>
    · rw [h1] at h
      simp at h
      exact h.2

/-- C5, as stated, fails: after saving `Hello` = `one` and then `Hello` = `none`,
the page handed to the renderer is `{Hello, none}`, in which the first body
`one` appears. -/
theorem C5_counterexample :
    (viewHandler (fun _ _ => none) ⟨ascii "GET", ascii "/view/Hello", fun _ => []⟩ (ascii "Hello")
        ((newStorage.save ⟨ascii "Hello", ascii "one"⟩).save ⟨ascii "Hello", ascii "none"⟩)).trace =
        [Event.Println "VIEWED",
          Event.ExecuteTemplate (ascii "view.html") ⟨ascii "Hello", ascii "none"⟩] ∧
      (⟨ascii "Hello", ascii "none"⟩ : Page).mentions (ascii "one") := by
  decide

/-- C5, amended: saving `(t, b1)` and then `(t, b2)` gives a store that answers
every `loadPage` as the store obtained by saving only `(t, b2)`; a view of `t`
afterwards is rendered from the page `{t, b2}`, and `b1` appears in the page
handed to the renderer only if it occurs inside `t` or `b2`. -/
theorem C5_last_write_wins (templates : Templates) (r : Request) (s : Storage)
    (t b1 b2 : GoString) :
    (∀ k, ((s.save ⟨t, b1⟩).save ⟨t, b2⟩).loadPage k = (s.save ⟨t, b2⟩).loadPage k) ∧
      (viewHandler templates r t ((s.save ⟨t, b1⟩).save ⟨t, b2⟩)).trace =
        Event.Println "VIEWED" :: renderTemplate templates (ascii "view") ⟨t, b2⟩ ∧
      (∀ name p,
        Event.ExecuteTemplate name p ∈
            (viewHandler templates r t ((s.save ⟨t, b1⟩).save ⟨t, b2⟩)).trace →
          p = ⟨t, b2⟩ ∧ (p.mentions b1 → b1 <:+: t ∨ b1 <:+: b2)) := by
  have hv := viewHandler_present templates r t ((s.save ⟨t, b1⟩).save ⟨t, b2⟩) ⟨t, b2⟩
    (loadPage_save_self (s.save ⟨t, b1⟩) ⟨t, b2⟩)
  refine ⟨fun k => by rw [save_save], by rw [hv], ?_⟩
  intro name p hp
  rw [hv] at hp
  have hp2 : Event.ExecuteTemplate name p ∈ renderTemplate templates (ascii "view") ⟨t, b2⟩ := by
    simpa using hp
  have hpe := mem_of_executeTemplate templates (ascii "view") name ⟨t, b2⟩ p hp2
  subst hpe
  exact ⟨rfl, fun h => h⟩

/-- C5 (amended) at `Hello` = `one` then `Hello` = `two` on the empty store: the
renderer gets `{Hello, two}`, in which `one` does not appear. -/
theorem C5_last_write_wins_witness :
    Event.ExecuteTemplate (ascii "view.html") ⟨ascii "Hello", ascii "two"⟩ ∈
        (viewHandler (fun _ _ => none) ⟨ascii "GET", ascii "/view/Hello", fun _ => []⟩
          (ascii "Hello")
          ((newStorage.save ⟨ascii "Hello", ascii "one"⟩).save
            ⟨ascii "Hello", ascii "two"⟩)).trace ∧
      (⟨ascii "Hello", ascii "two"⟩ : Page) = ⟨ascii "Hello", ascii "two"⟩ ∧
      ¬ (⟨ascii "Hello", ascii "two"⟩ : Page).mentions (ascii "one") :=
  ⟨by decide,
    ((C5_last_write_wins (fun _ _ => none) ⟨ascii "GET", ascii "/view/Hello", fun _ => []⟩
      newStorage (ascii "Hello") (ascii "one") (ascii "two")).2.2 (ascii "view.html")
      ⟨ascii "Hello", ascii "two"⟩ (by decide)).1,
    by decide⟩

/-- Saving keeps every entry filed under the title of its page. -/
theorem title_invariant (ps : List Page) : ∀ s : Storage,
    (∀ k p, s.Data.lookup k = some p → p.Title = k) →
    ∀ k p, (ps.foldl Storage.save s).Data.lookup k = some p → p.Title = k := by
  induction ps with
  | nil => intro s hs; exact hs
  | cons q qs ih =>
    intro s hs
    apply ih (s.save q)
    intro k p hk
    by_cases hkq : k = q.Title
    · subst hkq
      simp [Storage.save] at hk
      rw [← hk]
    · rw [Storage.save, Finmap.lookup_insert_of_ne _ hkq] at hk
      exact hs k p hk

theorem loadPage_ok_iff (s : Storage) (k : GoString) (p : Page) :
    s.loadPage k = Except.ok p ↔ s.Data.lookup k = some p := by
  unfold Storage.loadPage
  cases s.Data.lookup k with
  | none => simp
  | some q => simp

/-- C6: on a store built from `newStorage()` by any sequence of saves, a page
returned by a successful `loadPage(k)` has `Title` equal to `k`. -/
theorem C6_loaded_title_is_key (ps : List Page) (k : GoString) (p : Page)
    (h : (savedAll ps).loadPage k = Except.ok p) : p.Title = k := by
  apply title_invariant ps newStorage _ k p ((loadPage_ok_iff _ k p).mp h)
  intro k p hk
  simp [newStorage] at hk

/-- C6 after saving `{a, x}` and `{b, y}`, at the key `a`. -/
theorem C6_loaded_title_is_key_witness :
    (savedAll [⟨ascii "a", ascii "x"⟩, ⟨ascii "b", ascii "y"⟩]).loadPage (ascii "a") =
        Except.ok ⟨ascii "a", ascii "x"⟩ ∧
      (⟨ascii "a", ascii "x"⟩ : Page).Title = ascii "a" :=
  ⟨by rfl,
    C6_loaded_title_is_key [⟨ascii "a", ascii "x"⟩, ⟨ascii "b", ascii "y"⟩] (ascii "a")
      ⟨ascii "a", ascii "x"⟩ (by rfl)⟩

/-! ## Frame properties and failure of `loadPage` -/

theorem loads_save (s : Storage) (p : Page) (k : GoString) (h : s.loads k) :
    (s.save p).loads k := by
  by_cases hk : k = p.Title
  · exact ⟨p, hk ▸ loadPage_save_self s p⟩
  · obtain ⟨q, hq⟩ := h
    exact ⟨q, (loadPage_save_other s p k hk).trans hq⟩

theorem viewHandler_store (templates : Templates) (r : Request) (t : GoString) (s : Storage) :
    (viewHandler templates r t s).store = s := by
  unfold viewHandler
  cases s.loadPage t <;> rfl

theorem editHandler_store (templates : Templates) (r : Request) (t : GoString) (s : Storage) :
    (editHandler templates r t s).store = s := by
  unfold editHandler
  cases s.loadPage t <;> rfl

/-- C7: a save leaves `loadPage(k)` as it was for every title `k` other than the
saved one (same page, or the same failure), and every title that loads before
a save, a save request, a view, an edit or a rejected request still loads
afterwards. -/
theorem C7_no_entry_removed (templates : Templates) (fn : HandlerFunc) (r : Request)
    (s : Storage) (p : Page) (t k : GoString) :
    (k ≠ p.Title → (s.save p).loadPage k = s.loadPage k) ∧
      (s.loads k → (s.save p).loads k) ∧
      (s.loads k → (saveHandler r t s).store.loads k) ∧
      (s.loads k → (viewHandler templates r t s).store.loads k) ∧
      (s.loads k → (editHandler templates r t s).store.loads k) ∧
      (s.loads k → validPath.FindStringSubmatch r.Path = none →
        (makeHandler fn r s).store.loads k) := by
  refine ⟨loadPage_save_other s p k, loads_save s p k, ?_, ?_, ?_, ?_⟩
  · intro h
    exact loads_save s _ k h
  · intro h
    rw [viewHandler_store]; exact h
  · intro h
    rw [editHandler_store]; exact h
  · intro h hr
    rw [makeHandler_rejects fn r s hr]; exact h

/-- C7 on the store holding `{a, x}`: the title `a` still loads after saving
`{b, y}`, after a save request for `b`, a view, an edit and the rejected
request `/view/`. -/
theorem C7_no_entry_removed_witness :
    ((savedAll [⟨ascii "a", ascii "x"⟩]).save ⟨ascii "b", ascii "y"⟩).loadPage (ascii "a") =
        (savedAll [⟨ascii "a", ascii "x"⟩]).loadPage (ascii "a") ∧
      ((savedAll [⟨ascii "a", ascii "x"⟩]).save ⟨ascii "b", ascii "y"⟩).loads (ascii "a") ∧
      (saveHandler ⟨ascii "POST", ascii "/view/", fun _ => []⟩ (ascii "b")
        (savedAll [⟨ascii "a", ascii "x"⟩])).store.loads (ascii "a") ∧
      (viewHandler (fun _ _ => none) ⟨ascii "POST", ascii "/view/", fun _ => []⟩ (ascii "b")
        (savedAll [⟨ascii "a", ascii "x"⟩])).store.loads (ascii "a") ∧
      (editHandler (fun _ _ => none) ⟨ascii "POST", ascii "/view/", fun _ => []⟩ (ascii "b")
        (savedAll [⟨ascii "a", ascii "x"⟩])).store.loads (ascii "a") ∧
      (makeHandler saveHandler ⟨ascii "POST", ascii "/view/", fun _ => []⟩
        (savedAll [⟨ascii "a", ascii "x"⟩])).store.loads (ascii "a") :=
  have h := C7_no_entry_removed (fun _ _ => none) saveHandler
    ⟨ascii "POST", ascii "/view/", fun _ => []⟩ (savedAll [⟨ascii "a", ascii "x"⟩])
    ⟨ascii "b", ascii "y"⟩ (ascii "b") (ascii "a")
  have hl : (savedAll [⟨ascii "a", ascii "x"⟩]).loads (ascii "a") := ⟨_, rfl⟩
  ⟨h.1 (by decide), h.2.1 hl, h.2.2.1 hl, h.2.2.2.1 hl, h.2.2.2.2.1 hl,
    h.2.2.2.2.2 hl (by decide)⟩

/-- The keys after a sequence of saves: the former keys and the saved titles. -/
theorem mem_foldl_save (ps : List Page) : ∀ (s : Storage) (t : GoString),
    t ∈ (ps.foldl Storage.save s).Data ↔ t ∈ s.Data ∨ ∃ p ∈ ps, p.Title = t := by
  induction ps with
  | nil => intro s t; simp
  | cons q qs ih =>
    intro s t
    rw [List.foldl_cons, ih (s.save q) t]
    simp only [Storage.save, Finmap.mem_insert, List.mem_cons, exists_eq_or_imp]
    constructor
    · rintro ((h | h) | h)
      · exact Or.inr (Or.inl h.symm)
      · exact Or.inl h
      · exact Or.inr (Or.inr h)
    · rintro (h | h | h)
      · exact Or.inl (Or.inr h)
      · exact Or.inl (Or.inl h.symm)
      · exact Or.inr h

theorem loadPage_error_iff (s : Storage) (t : GoString) :
    (∃ e, s.loadPage t = Except.error e) ↔ t ∉ s.Data := by
  rw [← Finmap.lookup_eq_none]
  unfold Storage.loadPage
  cases s.Data.lookup t with
  | none => simp
  | some q => simp

/-- C8: `loadPage(title)` returns the stored page when the store has an entry for
the title and fails with "page not found" otherwise; on a store built from
`newStorage()` by a sequence of saves it fails exactly when no page with that
title was saved, so every `loadPage` on a fresh `newStorage()` fails. -/
theorem C8_loadPage_result (s : Storage) (ps : List Page) (t : GoString) :
    (∀ p, s.Data.lookup t = some p → s.loadPage t = Except.ok p) ∧
      (t ∉ s.Data → s.loadPage t = Except.error "page not found") ∧
      ((∃ e, (savedAll ps).loadPage t = Except.error e) ↔ ∀ p ∈ ps, p.Title ≠ t) ∧
      newStorage.loadPage t = Except.error "page not found" := by
  refine ⟨fun p h => (loadPage_ok_iff s t p).mpr h, loadPage_absent s t, ?_, ?_⟩
  · rw [loadPage_error_iff, savedAll, mem_foldl_save]
    simp [newStorage, Finmap.not_mem_empty]
  · exact loadPage_absent _ t Finmap.not_mem_empty

/-- C8 on the store holding `{a, x}`: `a` loads, `b` was never saved and fails. -/
theorem C8_loadPage_result_witness :
    (savedAll [⟨ascii "a", ascii "x"⟩]).loadPage (ascii "a") = Except.ok ⟨ascii "a", ascii "x"⟩ ∧
      (savedAll [⟨ascii "a", ascii "x"⟩]).loadPage (ascii "b") =
        Except.error "page not found" ∧
      ∃ e, (savedAll [⟨ascii "a", ascii "x"⟩]).loadPage (ascii "b") = Except.error e :=
  ⟨(C8_loadPage_result (savedAll [⟨ascii "a", ascii "x"⟩]) [] (ascii "a")).1 _ (by decide),
    (C8_loadPage_result (savedAll [⟨ascii "a", ascii "x"⟩]) [] (ascii "b")).2.1 (by decide),
    (C8_loadPage_result newStorage [⟨ascii "a", ascii "x"⟩] (ascii "b")).2.2.1.mpr (by decide)⟩

/-! ## The edit handler and dispatch -/

theorem editHandler_absent (templates : Templates) (r : Request) (t : GoString) (s : Storage)
    (h : t ∉ s.Data) :
    editHandler templates r t s =
      ⟨s, Event.Println "EDITED" :: renderTemplate templates (ascii "edit") ⟨t, []⟩⟩ := by
  unfold editHandler
  rw [loadPage_absent s t h]

theorem editHandler_present (templates : Templates) (r : Request) (t : GoString) (s : Storage)
    (p : Page) (h : s.loadPage t = Except.ok p) :
    editHandler templates r t s =
      ⟨s, Event.Println "EDITED" :: renderTemplate templates (ascii "edit") p⟩ := by
  unfold editHandler
  rw [h]

theorem editHandler_trace (templates : Templates) (r : Request) (t : GoString) (s : Storage) :
    ∃ p, (editHandler templates r t s).trace =
      Event.Println "EDITED" :: renderTemplate templates (ascii "edit") p := by
  unfold editHandler
  cases s.loadPage t with
  | error e => exact ⟨_, rfl⟩
  | ok p => exact ⟨_, rfl⟩

/-- C9: for a valid title `t` the edit handler executes the template `edit.html`
and never redirects: on the stored page when the store has an entry for `t`,
and on the page with title `t` and an empty body when it has none. -/
theorem C9_edit_renders (templates : Templates) (r : Request) (t : GoString) (s : Storage)
    (_ht : validTitle t) :
    (∀ p, s.loadPage t = Except.ok p →
        editHandler templates r t s =
          ⟨s, Event.Println "EDITED" :: renderTemplate templates (ascii "edit") p⟩) ∧
      (t ∉ s.Data →
        editHandler templates r t s =
          ⟨s, Event.Println "EDITED" :: renderTemplate templates (ascii "edit") ⟨t, []⟩⟩) ∧
      (∀ url code, Event.Redirect url code ∉ (editHandler templates r t s).trace) ∧
      ∃ p, (editHandler templates r t s).trace.take 2 =
        [Event.Println "EDITED", Event.ExecuteTemplate (ascii "edit.html") p] := by
  have hname : ascii "edit" ++ ascii ".html" = ascii "edit.html" := by decide
  obtain ⟨p, hp⟩ := editHandler_trace templates r t s
  refine ⟨editHandler_present templates r t s, editHandler_absent templates r t s, ?_, p, ?_⟩
  · intro url code
    rw [hp]
    simp [renderTemplate_no_redirect]
  · rw [hp]
    rcases renderTemplate_cases templates (ascii "edit") p with h | ⟨err, h⟩ <;>
      simp [h, hname]

/-- C9 at the title `Hello`: on the empty store the edit template gets the
empty page, on the store holding `{Hello, world}` it gets that page. -/
theorem C9_edit_renders_witness :
    validTitle (ascii "Hello") ∧
      editHandler (fun _ _ => none) ⟨ascii "GET", ascii "/edit/Hello", fun _ => []⟩
          (ascii "Hello") newStorage =
        ⟨newStorage, [Event.Println "EDITED",
          Event.ExecuteTemplate (ascii "edit.html") ⟨ascii "Hello", []⟩]⟩ ∧
      editHandler (fun _ _ => none) ⟨ascii "GET", ascii "/edit/Hello", fun _ => []⟩
          (ascii "Hello") (savedAll [⟨ascii "Hello", ascii "world"⟩]) =
        ⟨savedAll [⟨ascii "Hello", ascii "world"⟩], [Event.Println "EDITED",
          Event.ExecuteTemplate (ascii "edit.html") ⟨ascii "Hello", ascii "world"⟩]⟩ :=
  ⟨by decide,
    (C9_edit_renders (fun _ _ => none) ⟨ascii "GET", ascii "/edit/Hello", fun _ => []⟩
      (ascii "Hello") newStorage (by decide)).2.1 (by decide),
    (C9_edit_renders (fun _ _ => none) ⟨ascii "GET", ascii "/edit/Hello", fun _ => []⟩
      (ascii "Hello") (savedAll [⟨ascii "Hello", ascii "world"⟩]) (by decide)).1
      ⟨ascii "Hello", ascii "world"⟩ rfl⟩

theorem serve_view (templates : Templates) (r : Request) (s : Storage)
    (h : (ascii "/view/").isPrefixOf r.Path = true) :
    serve templates r s = makeHandler (viewHandler templates) r s := by
  have he : (ascii "/edit/").isPrefixOf r.Path = false := by
    rw [Bool.eq_false_iff]; intro he
    rw [isPrefixOf_iff_take] at h he
    exact absurd (h.symm.trans he) (by decide)
  have hs : (ascii "/save/").isPrefixOf r.Path = false := by
    rw [Bool.eq_false_iff]; intro hs
    rw [isPrefixOf_iff_take] at h hs
    exact absurd (h.symm.trans hs) (by decide)
  simp only [serve, muxSelect, routes, List.foldl_cons, List.foldl_nil, h, he, hs, if_true,
    Bool.false_eq_true, if_false]

theorem serve_edit (templates : Templates) (r : Request) (s : Storage)
    (h : (ascii "/edit/").isPrefixOf r.Path = true) :
    serve templates r s = makeHandler (editHandler templates) r s := by
  have hv : (ascii "/view/").isPrefixOf r.Path = false := by
    rw [Bool.eq_false_iff]; intro hv
    rw [isPrefixOf_iff_take] at h hv
    exact absurd (h.symm.trans hv) (by decide)
  have hs : (ascii "/save/").isPrefixOf r.Path = false := by
    rw [Bool.eq_false_iff]; intro hs
    rw [isPrefixOf_iff_take] at h hs
    exact absurd (h.symm.trans hs) (by decide)
  simp only [serve, muxSelect, routes, List.foldl_cons, List.foldl_nil, h, hv, hs, if_true,
    Bool.false_eq_true, if_false]

theorem serve_save (templates : Templates) (r : Request) (s : Storage)
    (h : (ascii "/save/").isPrefixOf r.Path = true) :
    serve templates r s = makeHandler saveHandler r s := by
  have hv : (ascii "/view/").isPrefixOf r.Path = false := by
    rw [Bool.eq_false_iff]; intro hv
    rw [isPrefixOf_iff_take] at h hv
    exact absurd (h.symm.trans hv) (by decide)
  have he : (ascii "/edit/").isPrefixOf r.Path = false := by
    rw [Bool.eq_false_iff]; intro he
    rw [isPrefixOf_iff_take] at h he
    exact absurd (h.symm.trans he) (by decide)
  simp only [serve, muxSelect, routes, List.foldl_cons, List.foldl_nil, h, hv, he, if_true,
    Bool.false_eq_true, if_false]

theorem validations_renderTemplate (templates : Templates) (tmpl : GoString) (p : Page) :
    validations (renderTemplate templates tmpl p) = 0 := by
  rcases renderTemplate_cases templates tmpl p with h | ⟨err, h⟩ <;> rw [h] <;> rfl

theorem validations_viewHandler (templates : Templates) (r : Request) (t : GoString)
    (s : Storage) : validations (viewHandler templates r t s).trace = 0 := by
  unfold viewHandler
  cases s.loadPage t with
  | error e => rfl
  | ok p =>
    have := validations_renderTemplate templates (ascii "view") p
    simpa [validations] using this

theorem validations_editHandler (templates : Templates) (r : Request) (t : GoString)
    (s : Storage) : validations (editHandler templates r t s).trace = 0 := by
  obtain ⟨p, hp⟩ := editHandler_trace templates r t s
  rw [hp]
  have := validations_renderTemplate templates (ascii "edit") p
  simpa [validations] using this

theorem validations_saveHandler (r : Request) (t : GoString) (s : Storage) :
    validations (saveHandler r t s).trace = 0 := rfl

theorem validations_cons_validation (path : GoString) (trace : List Event) :
    validations (Event.FindStringSubmatch path :: trace) = validations trace + 1 := by
  simp [validations]

/-- C10: on a path accepted by the validator the server runs the handler
registered for the operation keyword of the path (a path starting with `/view/`
reaches the view handler, `/edit/` the edit handler, `/save/` the save handler)
with the extracted title, and the path is validated exactly once, before the
handler runs. -/
theorem C10_dispatch (templates : Templates) (r : Request) (s : Storage) (m : List GoString)
    (h : validPath.FindStringSubmatch r.Path = some m) :
    ∃ op title, m = [r.Path, op, title] ∧ op ∈ operations ∧
      (ascii "/view/" <+: r.Path → op = ascii "view" ∧
        serve templates r s =
          ⟨(viewHandler templates r title s).store,
            Event.FindStringSubmatch r.Path :: (viewHandler templates r title s).trace⟩) ∧
      (ascii "/edit/" <+: r.Path → op = ascii "edit" ∧
        serve templates r s =
          ⟨(editHandler templates r title s).store,
            Event.FindStringSubmatch r.Path :: (editHandler templates r title s).trace⟩) ∧
      (ascii "/save/" <+: r.Path → op = ascii "save" ∧
        serve templates r s =
          ⟨(saveHandler r title s).store,
            Event.FindStringSubmatch r.Path :: (saveHandler r title s).trace⟩) ∧
      (ascii "/view/" <+: r.Path ∨ ascii "/edit/" <+: r.Path ∨ ascii "/save/" <+: r.Path) ∧
      (serve templates r s).trace.head? = some (Event.FindStringSubmatch r.Path) ∧
      validations (serve templates r s).trace = 1 := by
  obtain ⟨op, title, hop, ht, hp, hm⟩ := find_some r.Path m h
  have e1 : ascii "/" = [47] := by decide
  have ee : ascii "edit" = [101, 100, 105, 116] := by decide
  have es : ascii "save" = [115, 97, 118, 101] := by decide
  have ev : ascii "view" = [118, 105, 101, 119] := by decide
  have pe : ascii "/edit/" = [47, 101, 100, 105, 116, 47] := by decide
  have ps : ascii "/save/" = [47, 115, 97, 118, 101, 47] := by decide
  have pv : ascii "/view/" = [47, 118, 105, 101, 119, 47] := by decide
  have hacc := fun fn => makeHandler_accepts fn r s op title hop ht hp
  refine ⟨op, title, hm, hop, ?_⟩
  simp only [operations, List.mem_cons, List.mem_singleton, List.not_mem_nil, or_false] at hop
  rcases hop with rfl | rfl | rfl
  · have hpre : (ascii "/view/").isPrefixOf r.Path = true := by
      rw [List.isPrefixOf_iff_prefix, hp, e1, ev, pv]; simp
    have hserve := (serve_view templates r s hpre).trans (hacc (viewHandler templates))
    refine ⟨fun _ => ⟨rfl, hserve⟩, ?_, ?_, Or.inl (List.isPrefixOf_iff_prefix.mp hpre), ?_, ?_⟩
    · intro hq; rw [hp, e1, ev, pe] at hq; simp at hq
    · intro hq; rw [hp, e1, ev, ps] at hq; simp at hq
    · rw [hserve]; rfl
    · rw [hserve, validations_cons_validation, validations_viewHandler]
  · have hpre : (ascii "/edit/").isPrefixOf r.Path = true := by
      rw [List.isPrefixOf_iff_prefix, hp, e1, ee, pe]; simp
    have hserve := (serve_edit templates r s hpre).trans (hacc (editHandler templates))
    refine ⟨?_, fun _ => ⟨rfl, hserve⟩, ?_,
      Or.inr (Or.inl (List.isPrefixOf_iff_prefix.mp hpre)), ?_, ?_⟩
    · intro hq; rw [hp, e1, ee, pv] at hq; simp at hq
    · intro hq; rw [hp, e1, ee, ps] at hq; simp at hq
    · rw [hserve]; rfl
    · rw [hserve, validations_cons_validation, validations_editHandler]
  · have hpre : (ascii "/save/").isPrefixOf r.Path = true := by
      rw [List.isPrefixOf_iff_prefix, hp, e1, es, ps]; simp
    have hserve := (serve_save templates r s hpre).trans (hacc saveHandler)
    refine ⟨?_, ?_, fun _ => ⟨rfl, hserve⟩,
      Or.inr (Or.inr (List.isPrefixOf_iff_prefix.mp hpre)), ?_, ?_⟩
    · intro hq; rw [hp, e1, es, pv] at hq; simp at hq
    · intro hq; rw [hp, e1, es, pe] at hq; simp at hq
    · rw [hserve]; rfl
    · rw [hserve, validations_cons_validation, validations_saveHandler]

/-- C10 at the request `/view/Hello` on the empty store. -/
theorem C10_dispatch_witness :
    validPath.FindStringSubmatch (ascii "/view/Hello") =
        some [ascii "/view/Hello", ascii "view", ascii "Hello"] ∧
      ∃ op title, [ascii "/view/Hello", ascii "view", ascii "Hello"] =
          [ascii "/view/Hello", op, title] ∧ op ∈ operations ∧
        (serve (fun _ _ => none) ⟨ascii "GET", ascii "/view/Hello", fun _ => []⟩
          newStorage).trace.head? = some (Event.FindStringSubmatch (ascii "/view/Hello")) ∧
        validations (serve (fun _ _ => none) ⟨ascii "GET", ascii "/view/Hello", fun _ => []⟩
          newStorage).trace = 1 :=
  ⟨by decide,
    match C10_dispatch (fun _ _ => none) ⟨ascii "GET", ascii "/view/Hello", fun _ => []⟩
      newStorage [ascii "/view/Hello", ascii "view", ascii "Hello"] (by decide) with
    | ⟨op, title, hm, hop, _, _, _, _, hh, hv⟩ => ⟨op, title, hm, hop, hh, hv⟩⟩


/-! ## Saving without a body field -/

theorem save_path_eq (t : GoString) :
    ascii "/save/" ++ t = ascii "/" ++ ascii "save" ++ ascii "/" ++ t := rfl

theorem view_path_eq (t : GoString) :
    ascii "/view/" ++ t = ascii "/" ++ ascii "view" ++ ascii "/" ++ t := rfl

theorem edit_path_eq (t : GoString) :
    ascii "/edit/" ++ t = ascii "/" ++ ascii "edit" ++ ascii "/" ++ t := rfl

theorem serve_save_path (templates : Templates) (method : GoString)
    (form : GoString → List GoString) (t : GoString) (s : Storage) (ht : validTitle t) :
    serve templates ⟨method, ascii "/save/" ++ t, form⟩ s =
      ⟨(saveHandler ⟨method, ascii "/save/" ++ t, form⟩ t s).store,
        Event.FindStringSubmatch (ascii "/save/" ++ t) ::
          (saveHandler ⟨method, ascii "/save/" ++ t, form⟩ t s).trace⟩ := by
  have hpre : (ascii "/save/").isPrefixOf (ascii "/save/" ++ t) = true := by
    rw [List.isPrefixOf_iff_prefix]; exact List.prefix_append _ _
  rw [serve_save templates _ s hpre]
  exact makeHandler_accepts saveHandler ⟨method, ascii "/save/" ++ t, form⟩ s (ascii "save") t
    (by decide) ht (save_path_eq t)

theorem serve_view_path (templates : Templates) (method : GoString)
    (form : GoString → List GoString) (t : GoString) (s : Storage) (ht : validTitle t) :
    serve templates ⟨method, ascii "/view/" ++ t, form⟩ s =
      ⟨(viewHandler templates ⟨method, ascii "/view/" ++ t, form⟩ t s).store,
        Event.FindStringSubmatch (ascii "/view/" ++ t) ::
          (viewHandler templates ⟨method, ascii "/view/" ++ t, form⟩ t s).trace⟩ := by
  have hpre : (ascii "/view/").isPrefixOf (ascii "/view/" ++ t) = true := by
    rw [List.isPrefixOf_iff_prefix]; exact List.prefix_append _ _
  rw [serve_view templates _ s hpre]
  exact makeHandler_accepts (viewHandler templates) ⟨method, ascii "/view/" ++ t, form⟩ s
    (ascii "view") t (by decide) ht (view_path_eq t)

/-- C12: whatever the method, a request to `/save/<t>` whose form has no `body`
field is accepted and the save handler stores the page `{t, empty body}`,
replacing any earlier entry for `t`; a view of `t` afterwards executes the view
template on that page with the empty body and does not redirect. -/
theorem C12_save_without_body (templates : Templates) (method method2 : GoString)
    (form form2 : GoString → List GoString) (t : GoString) (s : Storage)
    (ht : validTitle t) (hb : form (ascii "body") = []) :
    serve templates ⟨method, ascii "/save/" ++ t, form⟩ s =
        ⟨s.save ⟨t, []⟩,
          [Event.FindStringSubmatch (ascii "/save/" ++ t), Event.Println "SAVED",
            Event.Redirect (ascii "/view/" ++ t) 302]⟩ ∧
      (serve templates ⟨method, ascii "/save/" ++ t, form⟩ s).store.loadPage t =
        Except.ok ⟨t, []⟩ ∧
      serve templates ⟨method2, ascii "/view/" ++ t, form2⟩
          (serve templates ⟨method, ascii "/save/" ++ t, form⟩ s).store =
        ⟨s.save ⟨t, []⟩,
          Event.FindStringSubmatch (ascii "/view/" ++ t) :: Event.Println "VIEWED" ::
            renderTemplate templates (ascii "view") ⟨t, []⟩⟩ ∧
      (∀ url code, Event.Redirect url code ∉
        (serve templates ⟨method2, ascii "/view/" ++ t, form2⟩
          (serve templates ⟨method, ascii "/save/" ++ t, form⟩ s).store).trace) ∧
      (serve templates ⟨method2, ascii "/view/" ++ t, form2⟩
          (serve templates ⟨method, ascii "/save/" ++ t, form⟩ s).store).trace.take 3 =
        [Event.FindStringSubmatch (ascii "/view/" ++ t), Event.Println "VIEWED",
          Event.ExecuteTemplate (ascii "view.html") ⟨t, []⟩] := by
  have hsave : serve templates ⟨method, ascii "/save/" ++ t, form⟩ s =
      ⟨s.save ⟨t, []⟩,
        [Event.FindStringSubmatch (ascii "/save/" ++ t), Event.Println "SAVED",
          Event.Redirect (ascii "/view/" ++ t) 302]⟩ := by
    rw [serve_save_path templates method form t s ht]
    simp [saveHandler, Request.FormValue, hb, StatusFound]
  have hview : serve templates ⟨method2, ascii "/view/" ++ t, form2⟩
      (serve templates ⟨method, ascii "/save/" ++ t, form⟩ s).store =
      ⟨s.save ⟨t, []⟩,
        Event.FindStringSubmatch (ascii "/view/" ++ t) :: Event.Println "VIEWED" ::
          renderTemplate templates (ascii "view") ⟨t, []⟩⟩ := by
    rw [hsave, serve_view_path templates method2 form2 t _ ht,
      viewHandler_present templates _ t _ ⟨t, []⟩ (loadPage_save_self s ⟨t, []⟩)]
  have hname : ascii "view" ++ ascii ".html" = ascii "view.html" := by decide
  refine ⟨hsave, ?_, hview, ?_, ?_⟩
  · rw [hsave]; exact loadPage_save_self s ⟨t, []⟩
  · intro url code
    rw [hview]
    simp [renderTemplate_no_redirect]
  · rw [hview]
    rcases renderTemplate_cases templates (ascii "view") ⟨t, []⟩ with h | ⟨err, h⟩ <;>
      simp [h, hname]

/-- C12 at `GET /save/Hello` without form fields, on the store that holds
`{Hello, world}`, followed by `GET /view/Hello`. -/
theorem C12_save_without_body_witness :
    validTitle (ascii "Hello") ∧
      (serve (fun _ _ => none) ⟨ascii "GET", ascii "/save/Hello", fun _ => []⟩
          (savedAll [⟨ascii "Hello", ascii "world"⟩])).store.loadPage (ascii "Hello") =
        Except.ok ⟨ascii "Hello", []⟩ ∧
      (serve (fun _ _ => none) ⟨ascii "GET", ascii "/view/Hello", fun _ => []⟩
          (serve (fun _ _ => none) ⟨ascii "GET", ascii "/save/Hello", fun _ => []⟩
            (savedAll [⟨ascii "Hello", ascii "world"⟩])).store).trace.take 3 =
        [Event.FindStringSubmatch (ascii "/view/Hello"), Event.Println "VIEWED",
          Event.ExecuteTemplate (ascii "view.html") ⟨ascii "Hello", []⟩] :=
  have h := C12_save_without_body (fun _ _ => none) (ascii "GET") (ascii "GET") (fun _ => [])
    (fun _ => []) (ascii "Hello") (savedAll [⟨ascii "Hello", ascii "world"⟩]) (by decide) rfl
  ⟨by decide, h.2.1, h.2.2.2.2⟩


/-! ## Invariant of the served stores -/

/-- The handler built by `makeHandler` either rejects the request or runs its
handler on a valid title. -/
theorem makeHandler_cases (fn : HandlerFunc) (r : Request) (s : Storage) :
    (validPath.FindStringSubmatch r.Path = none ∧
        makeHandler fn r s = ⟨s, [Event.FindStringSubmatch r.Path, Event.NotFound]⟩) ∨
      ∃ title, validTitle title ∧
        makeHandler fn r s =
          ⟨(fn r title s).store, Event.FindStringSubmatch r.Path :: (fn r title s).trace⟩ := by
  cases hf : validPath.FindStringSubmatch r.Path with
  | none => exact Or.inl ⟨rfl, makeHandler_rejects fn r s hf⟩
  | some m =>
    obtain ⟨op, title, hop, ht, hp, _⟩ := find_some r.Path m hf
    exact Or.inr ⟨title, ht, makeHandler_accepts fn r s op title hop ht hp⟩

/-- The server either finds no pattern or runs one of the three wrapped
handlers. -/
theorem serve_cases (templates : Templates) (r : Request) (s : Storage) :
    serve templates r s = ⟨s, [Event.NotFound]⟩ ∨
      ∃ h : Handler, serve templates r s = makeHandler (h.fn templates) r s := by
  by_cases hv : (ascii "/view/").isPrefixOf r.Path = true
  · exact Or.inr ⟨Handler.view, serve_view templates r s hv⟩
  · by_cases he : (ascii "/edit/").isPrefixOf r.Path = true
    · exact Or.inr ⟨Handler.edit, serve_edit templates r s he⟩
    · by_cases hs : (ascii "/save/").isPrefixOf r.Path = true
      · exact Or.inr ⟨Handler.save, serve_save templates r s hs⟩
      · left
        rw [Bool.not_eq_true] at hv he hs
        simp only [serve, muxSelect, routes, List.foldl_cons, List.foldl_nil, hv, he, hs,
          Bool.false_eq_true, if_false]

/-- Saving under a valid title keeps every key valid and every page filed
under its own title. -/
theorem keyed_save (s : Storage) (t b : GoString) (ht : validTitle t)
    (hs : ∀ k p, s.Data.lookup k = some p → validTitle k ∧ p.Title = k) :
    ∀ k p, (s.save ⟨t, b⟩).Data.lookup k = some p → validTitle k ∧ p.Title = k := by
  intro k p hk
  by_cases hkt : k = t
  · subst hkt
    simp [Storage.save] at hk
    rw [← hk]
    exact ⟨ht, rfl⟩
  · rw [Storage.save, Finmap.lookup_insert_of_ne _ hkt] at hk
    exact hs k p hk

theorem keyed_makeHandler (templates : Templates) (h : Handler) (r : Request) (s : Storage)
    (hs : ∀ k p, s.Data.lookup k = some p → validTitle k ∧ p.Title = k) :
    ∀ k p, (makeHandler (h.fn templates) r s).store.Data.lookup k = some p →
      validTitle k ∧ p.Title = k := by
  rcases makeHandler_cases (h.fn templates) r s with ⟨_, hr⟩ | ⟨title, ht, ha⟩
  · rw [hr]; exact hs
  · rw [ha]
    cases h with
    | view => simp only [Handler.fn, viewHandler_store]; exact hs
    | edit => simp only [Handler.fn, editHandler_store]; exact hs
    | save => exact keyed_save s title _ ht hs

theorem keyed_serve (templates : Templates) (r : Request) (s : Storage)
    (hs : ∀ k p, s.Data.lookup k = some p → validTitle k ∧ p.Title = k) :
    ∀ k p, (serve templates r s).store.Data.lookup k = some p → validTitle k ∧ p.Title = k := by
  rcases serve_cases templates r s with h | ⟨h, hh⟩
  · rw [h]; exact hs
  · rw [hh]; exact keyed_makeHandler templates h r s hs

theorem keyed_servedAll (templates : Templates) (requests : List (Handler × Request)) :
    ∀ s : Storage, (∀ k p, s.Data.lookup k = some p → validTitle k ∧ p.Title = k) →
      ∀ k p, (requests.foldl (fun s x => (makeHandler (x.1.fn templates) x.2 s).store)
        s).Data.lookup k = some p → validTitle k ∧ p.Title = k := by
  induction requests with
  | nil => intro s hs; exact hs
  | cons x xs ih =>
    intro s hs
    exact ih _ (keyed_makeHandler templates x.1 x.2 s hs)

theorem keyed_main (templates : Templates) (requests : List Request) :
    ∀ st : Effect, (∀ k p, st.store.Data.lookup k = some p → validTitle k ∧ p.Title = k) →
      ∀ k p, (requests.foldl
        (fun st r => (⟨(serve templates r st.store).store,
          st.trace ++ (serve templates r st.store).trace⟩ : Effect)) st).store.Data.lookup k =
          some p → validTitle k ∧ p.Title = k := by
  induction requests with
  | nil => intro st hs; exact hs
  | cons x xs ih =>
    intro st hs
    exact ih _ (keyed_serve templates x st.store hs)

theorem keyed_newStorage :
    ∀ k p, newStorage.Data.lookup k = some p → validTitle k ∧ p.Title = k := by
  intro k p hk
  simp [newStorage] at hk

/-- C13: after any sequence of requests served through `makeHandler(viewHandler)`,
`makeHandler(editHandler)` and `makeHandler(saveHandler)` from `newStorage()`,
every key of the store is a non-empty string of ASCII letters and digits and
the page under each key has that key as its `Title`; the same holds for the
store of the server built by `main`. -/
theorem C13_served_store_keys (templates : Templates) (requests : List (Handler × Request))
    (rs : List Request) (k : GoString) :
    (k ∈ (servedAll templates requests).Data → validTitle k) ∧
      (∀ p, (servedAll templates requests).Data.lookup k = some p → p.Title = k) ∧
      (k ∈ (main templates rs).store.Data → validTitle k) ∧
      (∀ p, (main templates rs).store.Data.lookup k = some p → p.Title = k) := by
  have h1 := keyed_servedAll templates requests newStorage keyed_newStorage k
  have h2 := keyed_main templates rs ⟨newStorage, [Event.Println "RUNNED"]⟩ keyed_newStorage k
  refine ⟨?_, fun p hp => (h1 p hp).2, ?_, fun p hp => (h2 p hp).2⟩
  · intro hk
    obtain ⟨p, hp⟩ := Finmap.mem_iff.mp hk
    exact (h1 p hp).1
  · intro hk
    obtain ⟨p, hp⟩ := Finmap.mem_iff.mp hk
    exact (h2 p hp).1


/-- C13 after `POST /save/Hello` with `body=world` and a rejected
`POST /save/a_b`: the key `Hello` is there, it is a valid title and its page
has the title `Hello`. -/
theorem C13_served_store_keys_witness :
    ascii "Hello" ∈
        (servedAll (fun _ _ => none)
          [(Handler.save, ⟨ascii "POST", ascii "/save/Hello",
              fun k => if k = ascii "body" then [ascii "world"] else []⟩),
            (Handler.save, ⟨ascii "POST", ascii "/save/a_b", fun _ => []⟩)]).Data ∧
      validTitle (ascii "Hello") ∧
      (⟨ascii "Hello", ascii "world"⟩ : Page).Title = ascii "Hello" :=
  have h := C13_served_store_keys (fun _ _ => none)
    [(Handler.save, ⟨ascii "POST", ascii "/save/Hello",
        fun k => if k = ascii "body" then [ascii "world"] else []⟩),
      (Handler.save, ⟨ascii "POST", ascii "/save/a_b", fun _ => []⟩)] [] (ascii "Hello")
  ⟨by decide, h.1 (by decide), h.2.1 ⟨ascii "Hello", ascii "world"⟩ (by decide)⟩

/-! ## Only a save writes -/

theorem replyStatus_save (path : GoString) (r : Request) (t : GoString) (s : Storage) :
    replyStatus (Event.FindStringSubmatch path :: (saveHandler r t s).trace) = some 302 := rfl

/-- A request the server answers with 404 leaves the store as it was. -/
theorem serve_notFound_store (templates : Templates) (r : Request) (s : Storage)
    (h : replyStatus (serve templates r s).trace = some 404) : (serve templates r s).store = s := by
  rcases serve_cases templates r s with h0 | ⟨hd, hh⟩
  · rw [h0]
  · rw [hh] at h ⊢
    rcases makeHandler_cases (hd.fn templates) r s with ⟨_, hr⟩ | ⟨title, _, ha⟩
    · rw [hr]
    · rw [ha] at h ⊢
      cases hd with
      | view => exact viewHandler_store templates r title s
      | edit => exact editHandler_store templates r title s
      | save =>
        simp only [Handler.fn] at h
        rw [replyStatus_save] at h
        exact absurd h (by decide)

/-- C14: the view handler, the edit handler (also for an absent title) and a
request rejected with 404 leave the store exactly as it was; so an edit of an
unknown title does not create the page, and a view of it afterwards still
redirects to the edit form. -/
theorem C14_only_save_writes (templates : Templates) (fn : HandlerFunc) (r r2 : Request)
    (t : GoString) (s : Storage) :
    (viewHandler templates r t s).store = s ∧
      (editHandler templates r t s).store = s ∧
      (makeHandler (viewHandler templates) r s).store = s ∧
      (makeHandler (editHandler templates) r s).store = s ∧
      (validPath.FindStringSubmatch r.Path = none →
        makeHandler fn r s = ⟨s, [Event.FindStringSubmatch r.Path, Event.NotFound]⟩) ∧
      (replyStatus (serve templates r s).trace = some 404 → (serve templates r s).store = s) ∧
      (t ∉ s.Data →
        t ∉ (editHandler templates r t s).store.Data ∧
          viewHandler templates r2 t (editHandler templates r t s).store =
            ⟨s, [Event.Println "VIEWED", Event.Redirect (ascii "/edit/" ++ t) 302]⟩) := by
  have hv := viewHandler_store templates r t s
  have he := editHandler_store templates r t s
  refine ⟨hv, he, ?_, ?_, makeHandler_rejects fn r s, serve_notFound_store templates r s, ?_⟩
  · rcases makeHandler_cases (viewHandler templates) r s with ⟨_, hr⟩ | ⟨title, _, ha⟩
    · rw [hr]
    · rw [ha]; exact viewHandler_store templates r title s
  · rcases makeHandler_cases (editHandler templates) r s with ⟨_, hr⟩ | ⟨title, _, ha⟩
    · rw [hr]
    · rw [ha]; exact editHandler_store templates r title s
  · intro habs
    rw [he]
    exact ⟨habs, viewHandler_absent templates r2 t s habs⟩

/-- C14 on the empty store: `GET /edit/Hello` leaves `Hello` absent and a view
of it still redirects; the rejected `GET /save/a_b` and the unrouted `GET /`
change nothing. -/
theorem C14_only_save_writes_witness :
    ascii "Hello" ∉ newStorage.Data ∧
      viewHandler (fun _ _ => none) ⟨ascii "GET", ascii "/view/Hello", fun _ => []⟩
          (ascii "Hello")
          (editHandler (fun _ _ => none) ⟨ascii "GET", ascii "/edit/Hello", fun _ => []⟩
            (ascii "Hello") newStorage).store =
        ⟨newStorage, [Event.Println "VIEWED", Event.Redirect (ascii "/edit/Hello") 302]⟩ ∧
      makeHandler saveHandler ⟨ascii "GET", ascii "/save/a_b", fun _ => []⟩ newStorage =
        ⟨newStorage, [Event.FindStringSubmatch (ascii "/save/a_b"), Event.NotFound]⟩ ∧
      (serve (fun _ _ => none) ⟨ascii "GET", ascii "/", fun _ => []⟩ newStorage).store =
        newStorage :=
  ⟨by decide,
    ((C14_only_save_writes (fun _ _ => none) saveHandler
      ⟨ascii "GET", ascii "/edit/Hello", fun _ => []⟩
      ⟨ascii "GET", ascii "/view/Hello", fun _ => []⟩ (ascii "Hello") newStorage).2.2.2.2.2.2
      (by decide)).2,
    (C14_only_save_writes (fun _ _ => none) saveHandler
      ⟨ascii "GET", ascii "/save/a_b", fun _ => []⟩
      ⟨ascii "GET", ascii "/view/Hello", fun _ => []⟩ (ascii "Hello") newStorage).2.2.2.2.1
      (by decide),
    (C14_only_save_writes (fun _ _ => none) saveHandler
      ⟨ascii "GET", ascii "/", fun _ => []⟩
      ⟨ascii "GET", ascii "/view/Hello", fun _ => []⟩ (ascii "Hello") newStorage).2.2.2.2.2.1
      (by decide)⟩

/-! ## Redirect targets -/

theorem locations_renderTemplate (templates : Templates) (tmpl : GoString) (p : Page) :
    (renderTemplate templates tmpl p).filterMap Event.location = [] := by
  rcases renderTemplate_cases templates tmpl p with h | ⟨err, h⟩ <;> rw [h] <;> rfl

/-- C15: for a path accepted by the validator with extracted title `t`, the
`Location` the view handler emits is `/edit/<t>` and the one the save handler
emits is `/view/<t>`; both are accepted by the validator, which extracts `t`
from them again. -/
theorem C15_redirects_accepted (templates : Templates) (r : Request) (s : Storage)
    (path : GoString) (m : List GoString) (h : validPath.FindStringSubmatch path = some m) :
    ∃ op t, m = [path, op, t] ∧
      (∀ l ∈ (viewHandler templates r t s).trace.filterMap Event.location,
        l = ascii "/edit/" ++ t) ∧
      (t ∉ s.Data →
        (viewHandler templates r t s).trace.filterMap Event.location = [ascii "/edit/" ++ t]) ∧
      (saveHandler r t s).trace.filterMap Event.location = [ascii "/view/" ++ t] ∧
      validPath.FindStringSubmatch (ascii "/edit/" ++ t) =
        some [ascii "/edit/" ++ t, ascii "edit", t] ∧
      validPath.FindStringSubmatch (ascii "/view/" ++ t) =
        some [ascii "/view/" ++ t, ascii "view", t] := by
  obtain ⟨op, t, _, ht, _, hm⟩ := find_some path m h
  refine ⟨op, t, hm, ?_, ?_, rfl, ?_, ?_⟩
  · intro l hl
    unfold viewHandler at hl
    cases hload : s.loadPage t with
    | error e =>
      rw [hload] at hl
      simpa [Event.location] using hl
    | ok p =>
      rw [hload] at hl
      simp [Event.location, locations_renderTemplate] at hl
  · intro habs
    rw [viewHandler_absent templates r t s habs]
    rfl
  · rw [edit_path_eq]
    exact find_accepts (ascii "edit") t (by decide) ht
  · rw [view_path_eq]
    exact find_accepts (ascii "view") t (by decide) ht

/-- C15 at the accepted path `/save/Hello`: the redirect targets `/edit/Hello`
and `/view/Hello` are accepted with the title `Hello`. -/
theorem C15_redirects_accepted_witness :
    validPath.FindStringSubmatch (ascii "/save/Hello") =
        some [ascii "/save/Hello", ascii "save", ascii "Hello"] ∧
      ∃ op t, [ascii "/save/Hello", ascii "save", ascii "Hello"] = [ascii "/save/Hello", op, t] ∧
        validPath.FindStringSubmatch (ascii "/edit/" ++ t) =
          some [ascii "/edit/" ++ t, ascii "edit", t] ∧
        validPath.FindStringSubmatch (ascii "/view/" ++ t) =
          some [ascii "/view/" ++ t, ascii "view", t] :=
  ⟨by decide,
    match C15_redirects_accepted (fun _ _ => none)
      ⟨ascii "POST", ascii "/save/Hello", fun _ => []⟩ newStorage (ascii "/save/Hello")
      [ascii "/save/Hello", ascii "save", ascii "Hello"] (by decide) with
    | ⟨op, t, hm, _, _, _, he, hv⟩ => ⟨op, t, hm, he, hv⟩⟩

end Gowiki
